import Mathlib

set_option maxRecDepth 2000000

set_option maxHeartbeats 1000000

/-!
# Verification of the brokerage order router and ledger core

A shallow embedding of the core services of the backend repository:

* `services/fills.py` — `apply_fill`, `apply_cancel`, the audit helper `_log`;
* `services/holdings.py` — `validate_sell`, `apply_sell`;
* `endpoints/trader.py` — `log_trader_action`, the sell-side holding
  reservation of `place_order_for_client`, and the broker-error → HTTP
  status mapping of its exception handlers;
* `webhook_security.py` — `_candidate_secrets`, `compute_signature`,
  `verify_signature`;
* `endpoints/broker_webhook.py` — the `broker_fill` handler;
* `services/brokers/zerodha_adapter.py` — the response classification and
  bounded retry loop of `place_order`.

Modelling conventions:

* Python `Decimal` values and Python floats are modelled as exact
  rationals (`Rat`); `Decimal.quantize('0.0001')` is half-even rounding
  to four decimal places (`quantize4`).
* SQLAlchemy rows are records; a session is the record `DB` of row lists;
  `db.query(...).first()` is `List.find?`; in-place row mutation is a
  keyed replacement (`replaceBy`); `db.add` appends; a raised exception
  inside the transaction is `Except.error` and leaves the state unseen by
  the caller, which models the `begin_nested` rollback.
* HMAC-SHA256 and SHA-256 (the `hmac`/`hashlib` standard libraries) are
  implemented concretely over byte lists so that signatures and audit
  hashes are real digests.
* `datetime.utcnow()` is external; timestamps are modelled by a counter
  threaded through the state and rendered by `tsString`.  The numeric
  rendering inside the canonical audit JSON is modelled by an injective
  stand-in, since Python float `repr` is outside the embedding's scope.
* Python truthiness of optional strings (`if broker_fill_id:`) is
  `truthyStr`: `None` and the empty string are falsy.
-/

/-! ## SHA-256 and HMAC-SHA256 over byte lists (bytes are `Nat < 256`) -/

def w32 : Nat := 4294967296

def add32 (a b : Nat) : Nat := (a + b) % w32

def rotr32 (n x : Nat) : Nat :=
  Nat.lor (x >>> n) ((x <<< (32 - n)) % w32)

def shr32 (n x : Nat) : Nat := x >>> n

def xor3 (a b c : Nat) : Nat := Nat.xor (Nat.xor a b) c

def bigSigma0 (x : Nat) : Nat := xor3 (rotr32 2 x) (rotr32 13 x) (rotr32 22 x)

def bigSigma1 (x : Nat) : Nat := xor3 (rotr32 6 x) (rotr32 11 x) (rotr32 25 x)

def smallSigma0 (x : Nat) : Nat := xor3 (rotr32 7 x) (rotr32 18 x) (shr32 3 x)

def smallSigma1 (x : Nat) : Nat := xor3 (rotr32 17 x) (rotr32 19 x) (shr32 10 x)

def chWord (x y z : Nat) : Nat :=
  Nat.xor (Nat.land x y) (Nat.land (Nat.xor x 4294967295) z)

def majWord (x y z : Nat) : Nat :=
  Nat.xor (Nat.xor (Nat.land x y) (Nat.land x z)) (Nat.land y z)

def shaK : List Nat :=
  [1116352408, 1899447441, 3049323471, 3921009573,
   961987163, 1508970993, 2453635748, 2870763221,
   3624381080, 310598401, 607225278, 1426881987,
   1925078388, 2162078206, 2614888103, 3248222580,
   3835390401, 4022224774, 264347078, 604807628,
   770255983, 1249150122, 1555081692, 1996064986,
   2554220882, 2821834349, 2952996808, 3210313671,
   3336571891, 3584528711, 113926993, 338241895,
   666307205, 773529912, 1294757372, 1396182291,
   1695183700, 1986661051, 2177026350, 2456956037,
   2730485921, 2820302411, 3259730800, 3345764771,
   3516065817, 3600352804, 4094571909, 275423344,
   430227734, 506948616, 659060556, 883997877,
   958139571, 1322822218, 1537002063, 1747873779,
   1955562222, 2024104815, 2227730452, 2361852424,
   2428436474, 2756734187, 3204031479, 3329325298]

structure Hash8 where
  a : Nat
  b : Nat
  c : Nat
  d : Nat
  e : Nat
  f : Nat
  g : Nat
  h : Nat
deriving Repr, DecidableEq

def shaInit : Hash8 :=
  ⟨1779033703, 3144134277, 1013904242, 2773480762,
   1359893119, 2600822924, 528734635, 1541459225⟩

/-- Words of one 64-byte block (big-endian 4-byte groups). -/
def blockWords : List Nat → List Nat
  | b0 :: b1 :: b2 :: b3 :: rest => (((b0 * 256 + b1) * 256 + b2) * 256 + b3) :: blockWords rest
  | _ => []

/-- Extend the 16 block words by `i` further schedule words. -/
def extendSchedule (ws : List Nat) (i : Nat) : List Nat :=
  match i with
  | 0 => ws
  | i' + 1 =>
    let ws' := extendSchedule ws i'
    let n := ws'.length
    let w := add32 (add32 (smallSigma1 (ws'.getD (n - 2) 0)) (ws'.getD (n - 7) 0))
                   (add32 (smallSigma0 (ws'.getD (n - 15) 0)) (ws'.getD (n - 16) 0))
    ws' ++ [w]

def roundStep (st : Hash8) (kw : Nat × Nat) : Hash8 :=
  let t1 := add32 st.h (add32 (add32 (bigSigma1 st.e) (chWord st.e st.f st.g)) (add32 kw.1 kw.2))
  let t2 := add32 (bigSigma0 st.a) (majWord st.a st.b st.c)
  ⟨add32 t1 t2, st.a, st.b, st.c, add32 st.d t1, st.e, st.f, st.g⟩

def compressBlock (st : Hash8) (block : List Nat) : Hash8 :=
  let ws := extendSchedule (blockWords block) 48
  let r := (shaK.zip ws).foldl roundStep st
  ⟨add32 st.a r.a, add32 st.b r.b, add32 st.c r.c, add32 st.d r.d,
   add32 st.e r.e, add32 st.f r.f, add32 st.g r.g, add32 st.h r.h⟩

/-- Split into 64-byte chunks; the fuel argument keeps the recursion
structural so that digests reduce inside the kernel. -/
def chunks64Aux : Nat → List Nat → List (List Nat)
  | 0, _ => []
  | _, [] => []
  | fuel + 1, x :: xs => (x :: xs).take 64 :: chunks64Aux fuel ((x :: xs).drop 64)

def chunks64 (l : List Nat) : List (List Nat) := chunks64Aux l.length l

def lenBytes8 (n : Nat) : List Nat :=
  [n >>> 56 % 256, n >>> 48 % 256, n >>> 40 % 256, n >>> 32 % 256,
   n >>> 24 % 256, n >>> 16 % 256, n >>> 8 % 256, n % 256]

def padMessage (msg : List Nat) : List Nat :=
  let bitLen := msg.length * 8
  let padZeros := (55 + 64 - msg.length % 64) % 64
  msg ++ [0x80] ++ List.replicate padZeros 0 ++ lenBytes8 bitLen

def word2bytes (x : Nat) : List Nat :=
  [x >>> 24 % 256, x >>> 16 % 256, x >>> 8 % 256, x % 256]

def sha256 (msg : List Nat) : List Nat :=
  let st := (chunks64 (padMessage msg)).foldl compressBlock shaInit
  word2bytes st.a ++ word2bytes st.b ++ word2bytes st.c ++ word2bytes st.d ++
  word2bytes st.e ++ word2bytes st.f ++ word2bytes st.g ++ word2bytes st.h

def hexDigit (n : Nat) : Char :=
  if n < 10 then Char.ofNat (48 + n) else Char.ofNat (87 + n)

def byteHex (b : Nat) : List Char := [hexDigit (b / 16), hexDigit (b % 16)]

/-- Lowercase hex rendering, as `hexdigest()` produces. -/
def bytesToHex (bs : List Nat) : String :=
  ⟨(bs.map byteHex).flatten⟩

/-- Byte content of a string; the embedding only ever hashes ASCII data,
where UTF-8 bytes coincide with code points. -/
def strBytes (s : String) : List Nat := s.toList.map Char.toNat

example : sha256 (strBytes "abc") =
    [0xba, 0x78, 0x16, 0xbf, 0x8f, 0x01, 0xcf, 0xea, 0x41, 0x41, 0x40, 0xde,
     0x5d, 0xae, 0x22, 0x23, 0xb0, 0x03, 0x61, 0xa3, 0x96, 0x17, 0x7a, 0x9c,
     0xb4, 0x10, 0xff, 0x61, 0xf2, 0x00, 0x15, 0xad] := by decide

def hmacSha256 (key msg : List Nat) : List Nat :=
  let k0 := if key.length > 64 then sha256 key else key
  let kPad := k0 ++ List.replicate (64 - k0.length) 0
  let ipad := kPad.map (Nat.xor 0x36)
  let opad := kPad.map (Nat.xor 0x5c)
  sha256 (opad ++ sha256 (ipad ++ msg))

example : bytesToHex (hmacSha256 (strBytes "key")
      (strBytes "The quick brown fox jumps over the lazy dog")) =
    "f7bc83f430538424b13298e6aa6fb143ef4d59a14946175997479dbc2d1a3cd8" := by decide

/-- The digest always has 32 bytes. -/
theorem sha256_length (msg : List Nat) : (sha256 msg).length = 32 := by
  simp [sha256, word2bytes]

theorem bytesToHex_length (bs : List Nat) : (bytesToHex bs).length = 2 * bs.length := by
  unfold bytesToHex
  induction bs with
  | nil => rfl
  | cons b rest ih =>
    simp only [List.map_cons, List.flatten_cons, byteHex] at *
    simp only [String.length] at *
    simp only [List.length_append, List.length_cons, List.length_nil] at *
    omega

theorem bytesToHex_sha256_not_empty (msg : List Nat) :
    (bytesToHex (sha256 msg)).isEmpty = false := by
  have h := bytesToHex_length (sha256 msg)
  rw [sha256_length] at h
  rcases hs : bytesToHex (sha256 msg) with ⟨data⟩
  rw [hs] at h
  cases data with
  | nil => simp [String.length] at h
  | cons c cs =>
    simp only [String.isEmpty, String.endPos, beq_eq_false_iff_ne, ne_eq, String.Pos.ext_iff,
      String.Pos.byteIdx_zero]
    have := Char.utf8Size_pos c
    simp only [String.utf8ByteSize, String.utf8ByteSize.go]
    omega

/-! ## Canonical audit payload and the hash-chained log

`services/fills.py::_log` and `endpoints/trader.py::log_trader_action`
build the payload dict, serialize it with `json.dumps(..., sort_keys=True)`
and store `prev_hash` (the highest-id row's hash, `None` for the first
row) together with `hash = sha256(serial)`. -/

/-- Python truthiness of an optional string: `None` and `""` are falsy. -/
def truthyStr : Option String → Bool
  | none => false
  | some s => !s.isEmpty

/-- Modelled ISO timestamp: an injective rendering of the logical clock. -/
def tsString (n : Nat) : String := "ts-" ++ toString n

def jsonStr (s : String) : String := "\"" ++ s ++ "\""

def jsonOptStr : Option String → String
  | none => "null"
  | some s => jsonStr s

def jsonOptInt : Option Int → String
  | none => "null"
  | some n => toString n

/-- Wrap in literal braces (written escaped to keep them out of code
position inside the string literal). -/
def jsonObj (inner : String) : String := "\x7b" ++ inner ++ "\x7d"

structure AuditPayload where
  actor_user_id : Option Int
  target_user_id : Option Int
  action : String
  description : String
  details : String
  prev_hash : Option String
  ts : String
deriving Repr, DecidableEq

/-- Rendering of `json.dumps(payload, sort_keys=True)`: keys in sorted order with the
default `", "` / `": "` separators.  `details` is spliced in as its own
rendering. -/
def canonicalPayload (p : AuditPayload) : String :=
  jsonObj ("\"action\": " ++ jsonStr p.action ++
    ", \"actor_user_id\": " ++ jsonOptInt p.actor_user_id ++
    ", \"description\": " ++ jsonStr p.description ++
    ", \"details\": " ++ p.details ++
    ", \"prev_hash\": " ++ jsonOptStr p.prev_hash ++
    ", \"target_user_id\": " ++ jsonOptInt p.target_user_id ++
    ", \"ts\": " ++ jsonStr p.ts)

def auditHash (p : AuditPayload) : String :=
  bytesToHex (sha256 (strBytes (canonicalPayload p)))

/-- A persisted `AuditLog` row.  `ts` records the timestamp that went into
the hashed payload; the claims under check do not touch `created_at`. -/
structure AuditRow where
  actor_user_id : Option Int
  target_user_id : Option Int
  action : String
  description : String
  details : String
  prev_hash : Option String
  hash : Option String
  ts : String
deriving Repr, DecidableEq

/-- Computation of `prev_hash = last.hash if last and getattr(last, 'hash', None) else None`:
the highest-id row's hash when that row exists and its hash is truthy. -/
def prevHashOf : List AuditRow → Option String
  | [] => none
  | [last] =>
    match last.hash with
    | none => none
    | some h => if h.isEmpty then none else some h
  | _ :: rest => prevHashOf rest

/-- Embeds `services/fills.py::_log`. -/
def _log (audit : List AuditRow) (clock : Nat) (actor_user_id target_user_id : Option Int)
    (action description details : String) : List AuditRow × Nat :=
  let prev_hash := prevHashOf audit
  let ts := tsString clock
  let payload : AuditPayload :=
    ⟨actor_user_id, target_user_id, action, description, details, prev_hash, ts⟩
  let h := auditHash payload
  (audit ++ [⟨actor_user_id, target_user_id, action, description, details, prev_hash, some h, ts⟩],
   clock + 1)

/-- Embeds `endpoints/trader.py::log_trader_action`; `details or {}` renders an
absent dict as the empty object. -/
def log_trader_action (audit : List AuditRow) (clock : Nat) (actor_id target_id : Int)
    (action description : String) (details : Option String) : List AuditRow × Nat :=
  let d := match details with
    | none => jsonObj ""
    | some s => if s.isEmpty then jsonObj "" else s
  _log audit clock (some actor_id) (some target_id) action description d

/-! ## Ledger entities (`models/`) and the session state -/

/-- Embeds `models/order.py::Order` — the fields the core services read or
write.  `Decimal`/float columns are exact rationals. -/
structure Order where
  id : Int
  user_id : Int
  stock_symbol : String
  quantity : Int
  price : Rat
  order_type : String
  status : String
  filled_qty : Int
  avg_fill_price : Option Rat
deriving Repr, DecidableEq

/-- Embeds `models/user.py::User` — the ledger fields. -/
structure User where
  id : Int
  cash_available : Option Rat
  cash_blocked : Option Rat
deriving Repr, DecidableEq

/-- Embeds `models/holding.py::Holding`. -/
structure Holding where
  user_id : Int
  symbol : String
  quantity : Int
  reserved_qty : Int
  avg_price : Rat
deriving Repr, DecidableEq

/-- Embeds `models/order_fill.py::OrderFill`. -/
structure OrderFill where
  order_id : Int
  broker_fill_id : Option String
  quantity : Int
  price : Rat
deriving Repr, DecidableEq

/-- The session / database state seen by the services. -/
structure DB where
  orders : List Order
  users : List User
  holdings : List Holding
  fills : List OrderFill
  audit : List AuditRow
  clock : Nat
deriving Repr, DecidableEq

/-! ## Executable rational arithmetic

`Rat`'s ring operations normalize through `Nat.gcd`, which is defined by
well-founded recursion and therefore does not reduce inside the kernel.
The embedding instead uses operations built on a fuel-based gcd, proved
equal to the ordinary ones, so that concrete scenarios evaluate by
`decide` while general theorems reason with Mathlib's algebra. -/

def gcdFuel : Nat → Nat → Nat → Nat
  | 0, _, n => n
  | fuel + 1, m, n => if m = 0 then n else gcdFuel fuel (n % m) m

theorem gcdFuel_eq : ∀ (fuel m n : Nat), m < fuel → gcdFuel fuel m n = Nat.gcd m n := by
  intro fuel
  induction fuel with
  | zero => intro m n h; omega
  | succ fuel ih =>
    intro m n h
    by_cases hm : m = 0
    · subst hm; simp [gcdFuel]
    · rw [gcdFuel, if_neg hm, ih (n % m) m (by
        have : n % m < m := Nat.mod_lt n (Nat.pos_of_ne_zero hm)
        omega)]
      exact (Nat.gcd_rec m n).symm

def egcd (m n : Nat) : Nat := gcdFuel (m + 1) m n

theorem egcd_eq (m n : Nat) : egcd m n = Nat.gcd m n :=
  gcdFuel_eq _ _ _ (Nat.lt_succ_self m)

/-- Kernel-reducible version of `Rat.normalize`. -/
def ratNormalize (num : Int) (den : Nat) (den_nz : den ≠ 0) : Rat :=
  { num := num.tdiv (egcd num.natAbs den), den := den / egcd num.natAbs den,
    den_nz := Rat.normalize.den_nz den_nz (egcd_eq ..),
    reduced := Rat.normalize.reduced den_nz (egcd_eq ..) }

theorem ratNormalize_eq (num : Int) (den : Nat) (den_nz : den ≠ 0) :
    ratNormalize num den den_nz = Rat.normalize num den den_nz := by
  unfold ratNormalize Rat.normalize Rat.maybeNormalize
  split
  · next hg => apply Rat.ext <;> simp [egcd_eq, hg]
  · next hg => apply Rat.ext <;> simp [egcd_eq]

def radd (a b : Rat) : Rat :=
  ratNormalize (a.num * b.den + b.num * a.den) (a.den * b.den)
    (Nat.mul_ne_zero a.den_nz b.den_nz)

theorem radd_eq (a b : Rat) : radd a b = a + b := by
  rw [Rat.add_def]; exact ratNormalize_eq ..

def rsub (a b : Rat) : Rat :=
  ratNormalize (a.num * b.den - b.num * a.den) (a.den * b.den)
    (Nat.mul_ne_zero a.den_nz b.den_nz)

theorem rsub_eq (a b : Rat) : rsub a b = a - b := by
  rw [Rat.sub_def]; exact ratNormalize_eq ..

def rmul (a b : Rat) : Rat :=
  ratNormalize (a.num * b.num) (a.den * b.den)
    (Nat.mul_ne_zero a.den_nz b.den_nz)

theorem rmul_eq (a b : Rat) : rmul a b = a * b := by
  rw [Rat.mul_def]; exact ratNormalize_eq ..

def rinv (a : Rat) : Rat :=
  if h : a.num < 0 then
    { num := -a.den, den := a.num.natAbs,
      den_nz := Nat.ne_of_gt (Int.natAbs_pos.2 (Int.ne_of_lt h)),
      reduced := Int.natAbs_neg a.den ▸ a.reduced.symm }
  else if h : a.num > 0 then
    { num := a.den, den := a.num.natAbs,
      den_nz := Nat.ne_of_gt (Int.natAbs_pos.2 (Int.ne_of_gt h)),
      reduced := a.reduced.symm }
  else a

theorem rinv_eq (a : Rat) : rinv a = a.inv := by
  unfold rinv Rat.inv; rfl

def rdiv (a b : Rat) : Rat := rmul a (rinv b)

theorem rdiv_eq (a b : Rat) : rdiv a b = a / b := by
  rw [Rat.div_def, rdiv, rinv_eq, rmul_eq]

example : radd (rdiv 1 3) (rdiv 1 3) = rdiv 2 3 := by decide

/-- Python `x or 0` on a nullable `Decimal` column. -/
def orZero : Option Rat → Rat
  | none => 0
  | some q => q

def half : Rat := rdiv 1 2

theorem half_eq : half = 1 / 2 := by rw [half, rdiv_eq]

/-- Embeds `Decimal.quantize('0.0001')` with the default `ROUND_HALF_EVEN`. -/
def roundHalfEven (x : Rat) : Int :=
  let f := x.floor
  let r := rsub x (f : Rat)
  if r < half then f
  else if half < r then f + 1
  else if f % 2 = 0 then f else f + 1

def quantize4 (x : Rat) : Rat := rdiv ((roundHalfEven (rmul x 10000) : Int) : Rat) 10000

example : quantize4 (rdiv 484 10) = rdiv 242 5 := by decide
example : quantize4 (rdiv 1 3) = rdiv 3333 10000 := by decide
example : quantize4 (rdiv 5 100000) = 0 := by decide
example : quantize4 (rdiv 15 100000) = rdiv 1 5000 := by decide

def findOrder (db : DB) (order_id : Int) : Option Order :=
  db.orders.find? (fun o => o.id == order_id)

def findUser (db : DB) (user_id : Int) : Option User :=
  db.users.find? (fun u => u.id == user_id)

def findHolding (db : DB) (user_id : Int) (symbol : String) : Option Holding :=
  db.holdings.find? (fun h => h.user_id == user_id && h.symbol == symbol)

/-- In-place mutation of the row(s) matching a key. -/
def replaceBy (p : α → Bool) (new : α) (l : List α) : List α :=
  l.map (fun x => if p x then new else x)

theorem find?_replaceBy (p : α → Bool) (new a : α) (l : List α)
    (hfind : l.find? p = some a) (hnew : p new = true) :
    (replaceBy p new l).find? p = some new := by
  induction l with
  | nil => simp [List.find?] at hfind
  | cons x xs ih =>
    rw [replaceBy, List.map_cons]
    by_cases hx : p x = true
    · rw [List.find?_cons_of_pos _ (by simp [hx, hnew])]
      simp [hx]
    · rw [List.find?_cons_of_neg _ (by simp [hx])]
      rw [List.find?_cons_of_neg _ (by simp [hx])] at hfind
      exact ih hfind

/-! ## Fill service (`services/fills.py`) -/

inductive FillError where
  | valueError (msg : String)
  | fillAlreadyApplied
deriving Repr, DecidableEq

/-- Modelled rendering of a numeric value inside audit details. -/
def ratStr (q : Rat) : String := toString q.num ++ "/" ++ toString q.den

def imin (a b : Int) : Int := if a ≤ b then a else b

theorem imin_eq (a b : Int) : imin a b = min a b := (min_def a b).symm

/-- Weighted-average fill price after applying `aq` units at price `p`:
`(prev_value + p·aq) / (filled_qty + aq)` quantized to 4 dp. -/
def fillAvg (o : Order) (aq : Int) (p : Rat) : Rat :=
  let prev_value := if o.filled_qty = 0 then 0 else rmul (o.avg_fill_price.getD 0) (o.filled_qty : Rat)
  let new_value := radd prev_value (rmul p (aq : Rat))
  quantize4 (rdiv new_value ((o.filled_qty + aq : Int) : Rat))

/-- The order row after `filled_qty`, `avg_fill_price` and `status` are
updated by a fill of `aq` units at price `p`. -/
def orderAfterFill (o : Order) (aq : Int) (p : Rat) : Order :=
  { o with filled_qty := o.filled_qty + aq,
           avg_fill_price := some (fillAvg o aq p),
           status := if o.filled_qty + aq = o.quantity then "FILLED" else "PARTIALLY_FILLED" }

/-- Holding update in the buy branch of `apply_fill`. -/
def holdingAfterBuy (h : Holding) (aq : Int) (cost : Rat) : Holding :=
  let prev_val := if h.quantity = 0 then 0 else rmul h.avg_price (h.quantity : Rat)
  let nq := h.quantity + aq
  { h with quantity := nq,
           avg_price := if nq = 0 then 0 else rdiv (radd prev_val cost) (nq : Rat) }

/-- Holding update in the sell branch of `apply_fill`: `reserved_qty`
decremented clamped at zero, `quantity` decremented. -/
def holdingAfterSellFill (h : Holding) (aq : Int) : Holding :=
  { h with reserved_qty := if aq ≤ h.reserved_qty then h.reserved_qty - aq else 0,
           quantity := h.quantity - aq }

/-- The `cash_blocked` balance after consuming `cost`, clamped at zero. -/
def blockedAfterDebit (blocked : Option Rat) (cost : Rat) : Rat :=
  let b1 := rsub (orZero blocked) cost
  if b1 < 0 then 0 else b1

/-- Replace or create the holding row touched by a buy fill. -/
def buyHoldingsUpdate (db : DB) (uid : Int) (sym : String) (aq : Int) (cost : Rat) :
    List Holding :=
  match findHolding db uid sym with
  | some h => replaceBy (fun x => x.user_id == uid && x.symbol == sym)
      (holdingAfterBuy h aq cost) db.holdings
  | none => db.holdings ++ [holdingAfterBuy ⟨uid, sym, 0, 0, 0⟩ aq cost]

def fillMoveDetails (order_id qty : Int) (amount : Rat) : String :=
  jsonObj ("\"amount\": " ++ ratStr amount ++ ", \"order_id\": " ++ toString order_id ++
    ", \"qty\": " ++ toString qty)

def leftoverDetails (order_id : Int) (amount : Rat) : String :=
  jsonObj ("\"amount\": " ++ ratStr amount ++ ", \"order_id\": " ++ toString order_id)

def fillAppliedDetails (order_id qty : Int) (price : Rat) (filled_qty : Int)
    (status : String) : String :=
  jsonObj ("\"filled_qty\": " ++ toString filled_qty ++ ", \"order_id\": " ++ toString order_id ++
    ", \"price\": " ++ ratStr price ++ ", \"qty\": " ++ toString qty ++
    ", \"status\": " ++ jsonStr status)

/-- The in-transaction effect of the buy branch of `apply_fill`, given
the located order and user and the positive clipped quantity. -/
def applyFillBuy (db : DB) (order : Order) (user : User) (apply_qty : Int) (price : Rat)
    (broker_fill_id : Option String) : DB × Order :=
  let fill : OrderFill := ⟨order.id, broker_fill_id, apply_qty, price⟩
  let o' := orderAfterFill order apply_qty price
  let cost := rmul price ((apply_qty : Int) : Rat)
  let blocked2 := blockedAfterDebit user.cash_blocked cost
  let holdings' := buyHoldingsUpdate db user.id order.stock_symbol apply_qty cost
  let a1 := _log db.audit db.clock none (some user.id) "FUNDS_DEBIT"
    ("Consumed blocked funds " ++ ratStr cost ++ " for buy fill order " ++ toString order.id)
    (fillMoveDetails order.id apply_qty cost)
  let doLeftover := (o'.filled_qty == o'.quantity) && decide (0 < blocked2)
  let u' : User := { user with
    cash_available := if doLeftover
      then some (radd (orZero user.cash_available) blocked2)
      else user.cash_available,
    cash_blocked := some (if doLeftover then 0 else blocked2) }
  let a2 := if doLeftover then
      _log a1.1 a1.2 none (some user.id) "FUNDS_CREDIT"
        ("Released leftover blocked " ++ ratStr blocked2 ++ " after full fill order " ++ toString order.id)
        (leftoverDetails order.id blocked2)
    else a1
  let a3 := _log a2.1 a2.2 none (some user.id) "FILL_APPLIED"
    ("Fill " ++ toString apply_qty ++ "@" ++ ratStr price ++ " on order " ++ toString order.id)
    (fillAppliedDetails order.id apply_qty price o'.filled_qty o'.status)
  ({ orders := replaceBy (fun x => x.id == order.id) o' db.orders,
     users := replaceBy (fun x => x.id == user.id) u' db.users,
     holdings := holdings',
     fills := db.fills ++ [fill],
     audit := a3.1, clock := a3.2 }, o')

/-- The in-transaction effect of the sell branch of `apply_fill`. -/
def applyFillSell (db : DB) (order : Order) (user : User) (apply_qty : Int) (price : Rat)
    (broker_fill_id : Option String) : Except FillError (DB × Order) :=
  match findHolding db user.id order.stock_symbol with
  | none => .error (.valueError "Insufficient holding during fill")
  | some h =>
    if h.quantity < apply_qty then
      .error (.valueError "Insufficient holding during fill")
    else
      let fill : OrderFill := ⟨order.id, broker_fill_id, apply_qty, price⟩
      let o' := orderAfterFill order apply_qty price
      let proceeds := rmul price ((apply_qty : Int) : Rat)
      let h' := holdingAfterSellFill h apply_qty
      let u' : User := { user with
        cash_available := some (radd (orZero user.cash_available) proceeds) }
      let a1 := _log db.audit db.clock none (some user.id) "FUNDS_CREDIT"
        ("Credited proceeds " ++ ratStr proceeds ++ " for sell fill order " ++ toString order.id)
        (fillMoveDetails order.id apply_qty proceeds)
      let a2 := _log a1.1 a1.2 none (some user.id) "FILL_APPLIED"
        ("Fill " ++ toString apply_qty ++ "@" ++ ratStr price ++ " on order " ++ toString order.id)
        (fillAppliedDetails order.id apply_qty price o'.filled_qty o'.status)
      .ok ({ orders := replaceBy (fun x => x.id == order.id) o' db.orders,
             users := replaceBy (fun x => x.id == user.id) u' db.users,
             holdings := replaceBy
               (fun x => x.user_id == user.id && x.symbol == order.stock_symbol)
               h' db.holdings,
             fills := db.fills ++ [fill],
             audit := a2.1, clock := a2.2 }, o')

/-- Embeds `services/fills.py::apply_fill`.  Success returns the committed state
together with the (updated) order; an exception rolls the transaction
back, so the caller's state is the unchanged `db`. -/
def apply_fill (db : DB) (order_id : Int) (quantity : Int) (price : Rat)
    (broker_fill_id : Option String) : Except FillError (DB × Order) :=
  if quantity ≤ 0 then .error (.valueError "quantity must be > 0")
  else
    match findOrder db order_id with
    | none => .error (.valueError "Order not found")
    | some order =>
      match findUser db order.user_id with
      | none => .error (.valueError "User not found for order")
      | some user =>
        if truthyStr broker_fill_id &&
            db.fills.any (fun f => f.order_id == order_id && f.broker_fill_id == broker_fill_id) then
          .error .fillAlreadyApplied
        else
          let apply_qty := imin quantity (order.quantity - order.filled_qty)
          if apply_qty ≤ 0 then .ok (db, order)
          else if order.order_type == "buy" then
            .ok (applyFillBuy db order user apply_qty price broker_fill_id)
          else
            applyFillSell db order user apply_qty price broker_fill_id

/-- The state a caller observes after running `apply_fill`: the committed
state on success, the rolled-back original on an exception. -/
def applyFillDB (db : DB) (order_id quantity : Int) (price : Rat)
    (broker_fill_id : Option String) : DB :=
  match apply_fill db order_id quantity price broker_fill_id with
  | .ok (db', _) => db'
  | .error _ => db

/-- ASCII lowercase, mirroring `str.lower()` on the status strings
(`String.toLower`'s recursion does not reduce in the kernel). -/
def charToLower (c : Char) : Char :=
  if 65 ≤ c.toNat && c.toNat ≤ 90 then Char.ofNat (c.toNat + 32) else c

def strToLower (s : String) : String := ⟨s.toList.map charToLower⟩

/-- The cash release of `apply_cancel` for a buy order with remaining
quantity: credit the user's entire `cash_blocked` to `cash_available`. -/
def cancelUsersUpdate (db : DB) (o : Order) (u : User) : List User :=
  if o.order_type == "buy" then
    if 0 < o.quantity - o.filled_qty then
      replaceBy (fun x => x.id == u.id)
        { u with
          cash_available := some (radd (orZero u.cash_available) (orZero u.cash_blocked)),
          cash_blocked := some 0 } db.users
    else db.users
  else db.users

/-- The reservation release of `apply_cancel` for a sell order with
remaining quantity: `reserved_qty -= min(reserved_qty, remaining)`. -/
def cancelHoldingsUpdate (db : DB) (o : Order) (u : User) : List Holding :=
  if o.order_type == "buy" then db.holdings
  else if 0 < o.quantity - o.filled_qty then
    match findHolding db u.id o.stock_symbol with
    | some h =>
      if h.reserved_qty ≠ 0 then
        replaceBy (fun x => x.user_id == u.id && x.symbol == o.stock_symbol)
          { h with reserved_qty := h.reserved_qty - imin h.reserved_qty (o.quantity - o.filled_qty) }
          db.holdings
      else db.holdings
    | none => db.holdings
  else db.holdings

/-- Embeds `services/fills.py::apply_cancel`.  An already-terminal order is
returned unchanged before any mutation or audit write. -/
def apply_cancel (db : DB) (order_id : Int) (status : String) :
    Except FillError (DB × Order) :=
  if !(status == "CANCELLED" || status == "REJECTED") then
    .error (.valueError "Invalid cancel/reject status")
  else
    match findOrder db order_id with
    | none => .error (.valueError "Order not found")
    | some order =>
      if order.status == "CANCELLED" || order.status == "REJECTED" ||
          order.status == "FILLED" then
        .ok (db, order)
      else
        match findUser db order.user_id with
        | none => .error (.valueError "User not found")
        | some user =>
          let o' := { order with status := status }
          let a1 := _log db.audit db.clock none (some user.id) ("ORDER_" ++ status)
            ("Order " ++ strToLower status)
            (jsonObj ("\"order_id\": " ++ toString order.id ++ ", \"status\": " ++ jsonStr status))
          .ok ({ orders := replaceBy (fun x => x.id == order.id) o' db.orders,
                 users := cancelUsersUpdate db order user,
                 holdings := cancelHoldingsUpdate db order user,
                 fills := db.fills,
                 audit := a1.1, clock := a1.2 }, o')

/-! ## Holdings service (`services/holdings.py`) -/

inductive HoldingsError where
  | insufficientHoldings (symbol : String) (haveQty wantQty : Int)
deriving Repr, DecidableEq

/-- Embeds `services/holdings.py::validate_sell`. -/
def validate_sell (db : DB) (user_id : Int) (symbol : String) (quantity : Int) :
    Except HoldingsError Holding :=
  match findHolding db user_id symbol with
  | none => .error (.insufficientHoldings symbol 0 quantity)
  | some h =>
    if h.quantity < quantity then .error (.insufficientHoldings symbol h.quantity quantity)
    else .ok h

/-- Embeds `services/holdings.py::apply_sell`: decrement `quantity`; delete the
row when it reaches zero.  `reserved_qty` is not touched. -/
def apply_sell (db : DB) (user_id : Int) (symbol : String) (quantity : Int) :
    Except HoldingsError (DB × Option Holding) :=
  match validate_sell db user_id symbol quantity with
  | .error e => .error e
  | .ok h =>
    let newQty := h.quantity - quantity
    if newQty ≤ 0 then
      let hs := db.holdings.filter (fun x => !(x.user_id == user_id && x.symbol == symbol))
      .ok ({ db with holdings := hs }, none)
    else
      let h' := { h with quantity := newQty }
      let hs := replaceBy (fun x => x.user_id == user_id && x.symbol == symbol) h' db.holdings
      .ok ({ db with holdings := hs }, some h')

/-- The sell branch of `endpoints/trader.py::place_order_for_client`:
row-lock the holding, require `quantity − reserved_qty ≥ payload.quantity`,
then reserve and audit HOLDINGS_RESERVED. -/
def reserve_sell_holdings (db : DB) (trader_id client_id : Int) (symbol : String)
    (quantity : Int) : Except String DB :=
  match findHolding db client_id symbol with
  | none => .error "Insufficient holdings to reserve for sell"
  | some h =>
    if h.quantity - h.reserved_qty < quantity then
      .error "Insufficient holdings to reserve for sell"
    else
      let a1 := log_trader_action db.audit db.clock trader_id client_id "HOLDINGS_RESERVED"
        ("Reserved " ++ toString quantity ++ " " ++ symbol ++ " for SELL")
        (some (jsonObj ("\"order_id\": null, \"qty\": " ++ toString quantity ++
          ", \"symbol\": " ++ jsonStr symbol)))
      .ok { db with
        holdings := replaceBy (fun x => x.user_id == client_id && x.symbol == symbol)
          { h with reserved_qty := h.reserved_qty + quantity } db.holdings,
        audit := a1.1, clock := a1.2 }

/-! ## Webhook signature verification (`webhook_security.py`) -/

structure Settings where
  BROKER_WEBHOOK_SECRET : Option String
  BROKER_WEBHOOK_ADDITIONAL_SECRETS : Option String
deriving Repr, DecidableEq

def SIGNATURE_HEADER : String := "X-Broker-Signature"

def ALGO_HEADER : String := "X-Broker-Signature-Alg"

def EXPECTED_ALGO : String := "HMAC-SHA256"

/-- Structural model of `str.split(',')` over the character list
(`String.split`'s position recursion does not reduce in the kernel). -/
def splitCommaChars : List Char → List (List Char)
  | [] => [[]]
  | c :: rest =>
    if c = ',' then [] :: splitCommaChars rest
    else
      match splitCommaChars rest with
      | [] => [[c]]
      | g :: gs => (c :: g) :: gs

def isSpaceChar (c : Char) : Bool := c = ' ' || c = '\t' || c = '\n' || c = '\r'

/-- Structural model of `str.strip()`. -/
def stripChars (l : List Char) : List Char :=
  ((l.dropWhile isSpaceChar).reverse.dropWhile isSpaceChar).reverse

/-- Embeds `webhook_security.py::_candidate_secrets`: primary (when truthy) plus
the comma-separated, stripped, non-empty rotated secrets. -/
def _candidate_secrets (settings : Settings) : List String :=
  let base := match settings.BROKER_WEBHOOK_SECRET with
    | none => []
    | some s => if s.isEmpty then [] else [s]
  match settings.BROKER_WEBHOOK_ADDITIONAL_SECRETS with
  | none => base
  | some extra =>
    if extra.isEmpty then base
    else base ++ ((splitCommaChars extra.toList).map (fun g => String.mk (stripChars g))).filter
      (fun t => !t.isEmpty)

/-- Embeds `webhook_security.py::compute_signature`: lowercase hex
`HMAC-SHA256(raw_body, secret)`, defaulting to the primary secret. -/
def compute_signature (settings : Settings) (raw_body : List Nat) (secret : Option String) :
    String :=
  let s := match secret with
    | none => (settings.BROKER_WEBHOOK_SECRET).getD ""
    | some s => s
  bytesToHex (hmacSha256 (strBytes s) raw_body)

inductive HttpError where
  | unauthorized (detail : String)
  | badRequest (detail : String)
deriving Repr, DecidableEq

def httpErrorStatus : HttpError → Nat
  | .unauthorized _ => 401
  | .badRequest _ => 400

/-- Embeds `webhook_security.py::verify_signature`.  Headers are a lookup from
header name to value. -/
def verify_signature (settings : Settings) (raw_body : List Nat)
    (headers : String → Option String) : Except HttpError Unit :=
  let provided := headers SIGNATURE_HEADER
  let algo := headers ALGO_HEADER
  if !truthyStr provided then .error (.unauthorized "Missing signature header")
  else if truthyStr algo && algo.getD "" != EXPECTED_ALGO then
    .error (.badRequest "Unsupported signature algorithm")
  else if (_candidate_secrets settings).any
      (fun c => compute_signature settings raw_body (some c) == provided.getD "") then
    .ok ()
  else .error (.unauthorized "Invalid signature")

/-! ## Broker fill webhook (`endpoints/broker_webhook.py::broker_fill`),
after signature verification -/

inductive FillResponse where
  | okFill (status : String) (filled_qty : Int) (avg_fill_price : Rat)
  | ignoredDuplicate
  | badRequest
deriving Repr, DecidableEq

def fillResponseStatus : FillResponse → Nat
  | .okFill _ _ _ => 200
  | .ignoredDuplicate => 200
  | .badRequest => 400

/-- The `try/except` body of the fill handler: commit on success, answer
`200 {status: IGNORED, reason: duplicate}` on `FillAlreadyApplied`
(without touching the state), and 400 with rollback otherwise. -/
def broker_fill (db : DB) (order_id quantity : Int) (price : Rat)
    (broker_fill_id : Option String) : FillResponse × DB :=
  match apply_fill db order_id quantity price broker_fill_id with
  | .ok (db', o) => (.okFill o.status o.filled_qty (o.avg_fill_price.getD 0), db')
  | .error .fillAlreadyApplied => (.ignoredDuplicate, db)
  | .error (.valueError _) => (.badRequest, db)

/-! ## Zerodha adapter (`services/brokers/zerodha_adapter.py`) and the
controller's error mapping (`endpoints/trader.py::place_order_for_client`) -/

/-- The normalized error kinds of `services/brokers/base.py`. -/
inductive BrokerErrorKind where
  | sessionError
  | rateLimit
  | temporaryError
  | permanentError
deriving Repr, DecidableEq

/-- One attempt's outcome at the vendor: an HTTP response with a status
code, or a network failure (`httpx.RequestError`). -/
inductive AttemptOutcome where
  | response (status_code : Nat)
  | networkError
deriving Repr, DecidableEq

inductive PlaceOutcome where
  | accepted
  | err (kind : BrokerErrorKind)
deriving Repr, DecidableEq

/-- The `while attempt < 3` retry loop of `ZerodhaAdapter.place_order`:
200 → accepted; 5xx and network errors are retried; 401 → session error;
any other response is raised as a permanent error at once.  Exhaustion
raises a temporary error. -/
def zerodha_place_order_loop : Nat → List AttemptOutcome → PlaceOutcome
  | 0, _ => .err .temporaryError
  | _ + 1, [] => .err .temporaryError
  | fuel + 1, outcome :: rest =>
    match outcome with
    | .networkError => zerodha_place_order_loop fuel rest
    | .response code =>
      if code == 200 then .accepted
      else if 500 ≤ code && code < 600 then zerodha_place_order_loop fuel rest
      else if code == 401 then .err .sessionError
      else .err .permanentError

/-- Embeds `ZerodhaAdapter.place_order` against the sequence of outcomes the
vendor would produce for successive attempts. -/
def zerodha_place_order (vendor : List AttemptOutcome) : PlaceOutcome :=
  zerodha_place_order_loop 3 vendor

/-- The HTTP status `place_order_for_client` surfaces for each normalized
broker error (its `except Broker*Error` handlers). -/
def broker_error_http_status : BrokerErrorKind → Nat
  | .sessionError => 401
  | .rateLimit => 429
  | .temporaryError => 502
  | .permanentError => 400

deriving instance DecidableEq for Except

/-! ## Sanity scenarios mirroring `tests/test_fill_processing.py` -/

/-- Buyer with `10000` reserved into `cash_blocked` as in
`test_partial_then_full_fill_buy`. -/
def buyFixtureDB : DB :=
  ⟨[⟨1, 1, "ABC", 100, 100, "buy", "ACCEPTED", 0, none⟩],
   [⟨1, some 0, some 10000⟩], [], [], [], 0⟩

example :
    (applyFillDB buyFixtureDB 1 40 99 (some "F1")).users = [⟨1, some 0, some 6040⟩] ∧
    (applyFillDB buyFixtureDB 1 40 99 (some "F1")).holdings = [⟨1, "ABC", 40, 0, 99⟩] ∧
    (findOrder (applyFillDB buyFixtureDB 1 40 99 (some "F1")) 1).map Order.status =
      some "PARTIALLY_FILLED" := by decide

example :
    (applyFillDB (applyFillDB buyFixtureDB 1 40 99 (some "F1")) 1 60 98 (some "F2")).users =
      [⟨1, some 160, some 0⟩] ∧
    (applyFillDB (applyFillDB buyFixtureDB 1 40 99 (some "F1")) 1 60 98 (some "F2")).holdings =
      [⟨1, "ABC", 100, 0, rdiv 492 5⟩] ∧
    (findOrder (applyFillDB (applyFillDB buyFixtureDB 1 40 99 (some "F1")) 1 60 98 (some "F2")) 1) =
      some ⟨1, 1, "ABC", 100, 100, "buy", "FILLED", 100, some (rdiv 492 5)⟩ := by decide

/-- Duplicate (order_id, broker_fill_id) raises `FillAlreadyApplied`, as
`test_idempotent_fill` asserts. -/
example :
    (apply_fill (applyFillDB buyFixtureDB 1 40 99 (some "F1")) 1 40 99 (some "F1")) =
      .error .fillAlreadyApplied := by decide

/-- Mirrors `test_cancel_releases_blocked`. -/
def cancelFixtureDB : DB :=
  ⟨[⟨1, 1, "CAN", 20, 50, "buy", "ACCEPTED", 0, none⟩],
   [⟨1, some 9000, some 1000⟩], [], [], [], 0⟩

example :
    ((apply_cancel cancelFixtureDB 1 "CANCELLED").map (fun r => (r.1.users, r.2.status))) =
      .ok ([⟨1, some 10000, some 0⟩], "CANCELLED") := by decide

/-- Mirrors `test_sell_fill_credits_cash`. -/
def sellFixtureDB : DB :=
  ⟨[⟨1, 1, "S", 20, 90, "sell", "ACCEPTED", 0, none⟩],
   [⟨1, some 10000, some 0⟩], [⟨1, "S", 50, 0, 80⟩], [], [], 0⟩

example :
    (applyFillDB sellFixtureDB 1 20 90 (some "SF1")).users = [⟨1, some 11800, some 0⟩] ∧
    (applyFillDB sellFixtureDB 1 20 90 (some "SF1")).holdings = [⟨1, "S", 30, 0, 80⟩] ∧
    (findOrder (applyFillDB sellFixtureDB 1 20 90 (some "SF1")) 1).map Order.status =
      some "FILLED" := by decide

/-! ## Proof infrastructure -/

theorem mem_replaceBy {p : α → Bool} {new x : α} {l : List α}
    (hx : x ∈ replaceBy p new l) : x = new ∨ x ∈ l := by
  rcases List.mem_map.1 hx with ⟨y, hy, hxy⟩
  by_cases hp : p y = true
  · simp [hp] at hxy; exact .inl hxy.symm
  · simp [hp] at hxy; exact .inr (hxy ▸ hy)

theorem find?_eq_some_mem {p : α → Bool} {l : List α} {a : α}
    (h : l.find? p = some a) : a ∈ l ∧ p a = true :=
  ⟨List.mem_of_find?_eq_some h, List.find?_some h⟩

theorem apply_fill_ok_cases {db : DB} {oid q : Int} {p : Rat} {b : Option String}
    {db' : DB} {o' : Order}
    (h : apply_fill db oid q p b = .ok (db', o')) :
    ∃ o u, findOrder db oid = some o ∧ findUser db o.user_id = some u ∧
      ¬ q ≤ 0 ∧
      (truthyStr b && db.fills.any (fun f => f.order_id == oid && f.broker_fill_id == b)) = false ∧
      ((imin q (o.quantity - o.filled_qty) ≤ 0 ∧ db' = db ∧ o' = o) ∨
       (¬ imin q (o.quantity - o.filled_qty) ≤ 0 ∧
         (((o.order_type == "buy") = true ∧
            (db', o') = applyFillBuy db o u (imin q (o.quantity - o.filled_qty)) p b) ∨
          ((o.order_type == "buy") = false ∧
            applyFillSell db o u (imin q (o.quantity - o.filled_qty)) p b = .ok (db', o'))))) := by
  unfold apply_fill at h
  by_cases hq : q ≤ 0
  · rw [if_pos hq] at h; simp at h
  rw [if_neg hq] at h
  cases hfind : findOrder db oid with
  | none => simp [hfind] at h
  | some o =>
    simp only [hfind] at h
    cases huser : findUser db o.user_id with
    | none => simp [huser] at h
    | some u =>
      simp only [huser] at h
      by_cases hdup :
          (truthyStr b && db.fills.any (fun f => f.order_id == oid && f.broker_fill_id == b)) = true
      · rw [if_pos hdup] at h; simp at h
      rw [if_neg hdup] at h
      refine ⟨o, u, rfl, huser, hq, by simpa using hdup, ?_⟩
      by_cases haq : imin q (o.quantity - o.filled_qty) ≤ 0
      · rw [if_pos haq] at h
        cases h
        exact .inl ⟨haq, rfl, rfl⟩
      rw [if_neg haq] at h
      by_cases hbuy : (o.order_type == "buy") = true
      · rw [if_pos hbuy] at h
        cases h
        exact .inr ⟨haq, .inl ⟨hbuy, rfl⟩⟩
      · rw [if_neg hbuy] at h
        exact .inr ⟨haq, .inr ⟨by simpa using hbuy, h⟩⟩

theorem applyFillSell_ok_inv {db : DB} {o : Order} {u : User} {aq : Int} {p : Rat}
    {b : Option String} {db' : DB} {o' : Order}
    (h : applyFillSell db o u aq p b = .ok (db', o')) :
    ∃ hold, findHolding db u.id o.stock_symbol = some hold ∧ ¬ hold.quantity < aq ∧
      o' = orderAfterFill o aq p ∧
      db'.orders = replaceBy (fun x => x.id == o.id) (orderAfterFill o aq p) db.orders ∧
      db'.users = replaceBy (fun x => x.id == u.id)
        { u with cash_available := some (radd (orZero u.cash_available) (rmul p ((aq : Int) : Rat))) }
        db.users ∧
      db'.holdings = replaceBy (fun x => x.user_id == u.id && x.symbol == o.stock_symbol)
        (holdingAfterSellFill hold aq) db.holdings ∧
      db'.fills = db.fills ++ [⟨o.id, b, aq, p⟩] := by
  unfold applyFillSell at h
  cases hh : findHolding db u.id o.stock_symbol with
  | none => simp [hh] at h
  | some hold =>
    simp only [hh] at h
    by_cases hlt : hold.quantity < aq
    · rw [if_pos hlt] at h; simp at h
    rw [if_neg hlt] at h
    cases h
    exact ⟨hold, rfl, hlt, rfl, rfl, rfl, rfl, rfl⟩

theorem apply_cancel_ok_inv {db : DB} {oid : Int} {st : String} {db' : DB} {o' : Order}
    (h : apply_cancel db oid st = .ok (db', o')) :
    (st == "CANCELLED" || st == "REJECTED") = true ∧
    ∃ o, findOrder db oid = some o ∧
      (((o.status == "CANCELLED" || o.status == "REJECTED" || o.status == "FILLED") = true ∧
        db' = db ∧ o' = o) ∨
       ((o.status == "CANCELLED" || o.status == "REJECTED" || o.status == "FILLED") = false ∧
        ∃ u, findUser db o.user_id = some u ∧
          o' = { o with status := st } ∧
          db'.orders = replaceBy (fun x => x.id == o.id) { o with status := st } db.orders ∧
          db'.users = cancelUsersUpdate db o u ∧
          db'.holdings = cancelHoldingsUpdate db o u ∧
          db'.fills = db.fills)) := by
  unfold apply_cancel at h
  by_cases hst : (st == "CANCELLED" || st == "REJECTED") = true
  · rw [if_neg (by simp [hst])] at h
    refine ⟨hst, ?_⟩
    cases hfind : findOrder db oid with
    | none => simp [hfind] at h
    | some o =>
      simp only [hfind] at h
      by_cases hterm : (o.status == "CANCELLED" || o.status == "REJECTED" ||
          o.status == "FILLED") = true
      · rw [if_pos hterm] at h
        simp only [Except.ok.injEq, Prod.mk.injEq] at h
        exact ⟨o, rfl, .inl ⟨hterm, h.1.symm, h.2.symm⟩⟩
      · rw [if_neg hterm] at h
        cases huser : findUser db o.user_id with
        | none => simp [huser] at h
        | some u =>
          simp only [huser] at h
          cases h
          exact ⟨o, rfl, .inr ⟨by simpa using hterm, u, huser, rfl, rfl, rfl, rfl, rfl⟩⟩
  · rw [if_pos (by simpa using hst)] at h
    simp at h

/-! ## The holdings invariant `0 ≤ reserved_qty ≤ quantity` -/

def holdingsInvariant (l : List Holding) : Prop :=
  ∀ h ∈ l, 0 ≤ h.reserved_qty ∧ h.reserved_qty ≤ h.quantity

theorem holdingsInvariant_buyHoldingsUpdate {db : DB} {uid : Int} {sym : String} {aq : Int}
    {cost : Rat} (hinv : holdingsInvariant db.holdings) (haq : 0 < aq) :
    holdingsInvariant (buyHoldingsUpdate db uid sym aq cost) := by
  unfold buyHoldingsUpdate
  cases hh : findHolding db uid sym with
  | none =>
    intro x hx
    rcases List.mem_append.1 hx with hx | hx
    · exact hinv x hx
    · simp only [List.mem_singleton] at hx
      subst hx
      refine ⟨by simp [holdingAfterBuy], ?_⟩
      simp [holdingAfterBuy]
      omega
  | some h0 =>
    intro x hx
    rcases mem_replaceBy hx with rfl | hx
    · have hm := hinv h0 (find?_eq_some_mem hh).1
      refine ⟨by simp [holdingAfterBuy]; omega, ?_⟩
      simp [holdingAfterBuy]
      omega
    · exact hinv x hx

theorem holdingsInvariant_sellFill {db : DB} {uid : Int} {sym : String}
    {hold : Holding} {aq : Int}
    (hinv : holdingsInvariant db.holdings)
    (hh : findHolding db uid sym = some hold) (hle : aq ≤ hold.quantity) :
    holdingsInvariant
      (replaceBy (fun x => x.user_id == uid && x.symbol == sym)
        (holdingAfterSellFill hold aq) db.holdings) := by
  intro x hx
  rcases mem_replaceBy hx with rfl | hx
  · have hm := hinv hold (find?_eq_some_mem hh).1
    unfold holdingAfterSellFill
    by_cases hc : aq ≤ hold.reserved_qty <;> simp [hc] <;> omega
  · exact hinv x hx

theorem holdingsInvariant_cancelHoldingsUpdate {db : DB} {o : Order} {u : User}
    (hinv : holdingsInvariant db.holdings) :
    holdingsInvariant (cancelHoldingsUpdate db o u) := by
  unfold cancelHoldingsUpdate
  by_cases hb : (o.order_type == "buy") = true
  · simpa [hb] using hinv
  rw [if_neg hb]
  by_cases hr : 0 < o.quantity - o.filled_qty
  · rw [if_pos hr]
    split
    · next h0 heq =>
        by_cases hz : h0.reserved_qty ≠ 0
        · rw [if_pos hz]
          intro x hx
          rcases mem_replaceBy hx with rfl | hx
          · have hm := hinv h0 (find?_eq_some_mem heq).1
            refine ⟨?_, ?_⟩ <;>
              · simp only [imin]
                by_cases hc : h0.reserved_qty ≤ o.quantity - o.filled_qty <;> simp [hc] <;> omega
          · exact hinv x hx
        · rw [if_neg hz]
          exact hinv
    · exact hinv
  · rw [if_neg hr]
    exact hinv

def exceptIsOk : Except ε α → Bool
  | .ok _ => true
  | .error _ => false

/-! ## Claim C5 — vendor HTTP 429 handling in the Zerodha adapter -/

theorem zerodhaLoop_ne_rateLimit (fuel : Nat) :
    ∀ vendor, zerodha_place_order_loop fuel vendor ≠ .err .rateLimit := by
  induction fuel with
  | zero => intro vendor; simp [zerodha_place_order_loop]
  | succ fuel ih =>
    intro vendor
    cases vendor with
    | nil => simp [zerodha_place_order_loop]
    | cons x rest =>
      cases x with
      | networkError => simpa [zerodha_place_order_loop] using ih rest
      | response code =>
        simp only [zerodha_place_order_loop]
        by_cases h200 : (code == 200) = true
        · simp [h200]
        · rw [if_neg (by simpa using h200)]
          by_cases h5 : (500 ≤ code && code < 600) = true
          · rw [if_pos h5]; exact ih rest
          · rw [if_neg (by simpa using h5)]
            by_cases h401 : (code == 401) = true
            · simp [h401]
            · rw [if_neg (by simpa using h401)]
              simp

/-- Claim C5, counterexample:  A vendor HTTP 429 on `place_order` is raised
as the permanent error kind, not the rate-limit kind, and the controller
surfaces permanent errors as HTTP 400, not 429. -/
theorem C5_counterexample :
    zerodha_place_order [.response 429] = .err .permanentError ∧
    zerodha_place_order [.response 429] ≠ .err .rateLimit ∧
    broker_error_http_status .permanentError = 400 := by decide

/-- Claim C5, amended:  `ZerodhaAdapter.place_order` classifies a vendor
HTTP 429 as `BrokerPermanentError` (no retry is attempted for it), which
`place_order_for_client` surfaces as HTTP 400.  The adapter never raises
the rate-limit kind on any vendor behaviour; the controller's
`BrokerRateLimitError → 429` handler is unreachable from this adapter. -/
theorem C5_rate_limit_amended :
    (∀ rest, zerodha_place_order (.response 429 :: rest) = .err .permanentError) ∧
    (∀ vendor, zerodha_place_order vendor ≠ .err .rateLimit) ∧
    broker_error_http_status .permanentError = 400 ∧
    broker_error_http_status .rateLimit = 429 :=
  ⟨fun rest => by simp [zerodha_place_order, zerodha_place_order_loop],
   fun vendor => zerodhaLoop_ne_rateLimit 3 vendor, rfl, rfl⟩

/-- Claim C5, witness. -/
theorem C5_witness :
    zerodha_place_order [.response 429, .response 200] = .err .permanentError ∧
    zerodha_place_order [.response 200] ≠ .err .rateLimit :=
  ⟨C5_rate_limit_amended.1 [.response 200], C5_rate_limit_amended.2.1 [.response 200]⟩

/-! ## Claim C8 — a fill at price 0 -/

/-- An open buy order with blocked funds, for the zero-price scenarios. -/
def zeroPriceDB : DB :=
  ⟨[⟨1, 1, "ZP", 10, 50, "buy", "ACCEPTED", 0, none⟩], [⟨1, some 0, some 500⟩], [], [], [], 0⟩

/-- Claim C8, counterexample:  `apply_fill` accepts a fill at `price = 0`:
it inserts an `OrderFill` row and mutates the order rather than rejecting
with an `InvalidPrice` kind. -/
theorem C8_counterexample :
    exceptIsOk (apply_fill zeroPriceDB 1 1 0 (some "Z1")) = true ∧
    (applyFillDB zeroPriceDB 1 1 0 (some "Z1")).fills = [⟨1, some "Z1", 1, 0⟩] ∧
    (findOrder (applyFillDB zeroPriceDB 1 1 0 (some "Z1")) 1).map Order.filled_qty = some 1 ∧
    (applyFillDB zeroPriceDB 1 1 0 (some "Z1")).fills ≠ zeroPriceDB.fills := by decide

/-- Claim C8, amended:  The only input validation in `apply_fill` is
`quantity ≤ 0 → ValueError`; a fill at `price = 0` is accepted and
applied like any other fill (there is no `InvalidPrice` check in
`apply_fill`; only `holdings.apply_buy`, which `apply_fill` does not
call, rejects non-positive explicit prices). -/
theorem C8_zero_price_amended :
    (∀ db oid q (p : Rat) b, q ≤ 0 →
      apply_fill db oid q p b = .error (.valueError "quantity must be > 0")) ∧
    ((applyFillDB zeroPriceDB 1 1 0 (some "Z1")).fills = [⟨1, some "Z1", 1, 0⟩] ∧
     (findOrder (applyFillDB zeroPriceDB 1 1 0 (some "Z1")) 1).map Order.status =
       some "PARTIALLY_FILLED" ∧
     (applyFillDB zeroPriceDB 1 1 0 (some "Z1")).users = [⟨1, some 0, some 500⟩]) := by
  constructor
  · intro db oid q p b hq
    unfold apply_fill
    rw [if_pos hq]
  · decide

/-- Claim C8, witness. -/
theorem C8_witness :
    apply_fill zeroPriceDB 1 0 50 none = .error (.valueError "quantity must be > 0") :=
  C8_zero_price_amended.1 zeroPriceDB 1 0 50 none (by decide)

/-! ## Claim C10 — duplicate detection is skipped without a broker fill id -/

/-- Fixture for repeated identical fills without a `broker_fill_id`. -/
def c10DB : DB :=
  ⟨[⟨1, 1, "T", 10, 10, "buy", "ACCEPTED", 0, none⟩], [⟨1, some 0, some 100⟩],
   [], [], [], 0⟩

/-- Claim C10:  With `broker_fill_id = None`, `apply_fill` never raises
`FillAlreadyApplied`, and re-invoking it with identical arguments while
quantity remains inserts a second `OrderFill` row and mutates holdings
and cash a second time. -/
theorem C10_no_dedup_without_broker_id :
    (∀ db oid q (p : Rat), apply_fill db oid q p none ≠ .error .fillAlreadyApplied) ∧
    ((applyFillDB (applyFillDB c10DB 1 2 10 none) 1 2 10 none).fills =
       [⟨1, none, 2, 10⟩, ⟨1, none, 2, 10⟩] ∧
     (findOrder (applyFillDB (applyFillDB c10DB 1 2 10 none) 1 2 10 none) 1).map Order.filled_qty =
       some 4 ∧
     (applyFillDB (applyFillDB c10DB 1 2 10 none) 1 2 10 none).holdings = [⟨1, "T", 4, 0, 10⟩] ∧
     (applyFillDB (applyFillDB c10DB 1 2 10 none) 1 2 10 none).users = [⟨1, some 0, some 60⟩] ∧
     (applyFillDB c10DB 1 2 10 none).users = [⟨1, some 0, some 80⟩]) := by
  constructor
  · intro db oid q p h
    unfold apply_fill at h
    by_cases hq : q ≤ 0
    · rw [if_pos hq] at h; simp at h
    rw [if_neg hq] at h
    cases hfind : findOrder db oid with
    | none => simp [hfind] at h
    | some o =>
      simp only [hfind] at h
      cases huser : findUser db o.user_id with
      | none => simp [huser] at h
      | some u =>
        simp only [huser] at h
        rw [if_neg (by simp [truthyStr])] at h
        by_cases haq : imin q (o.quantity - o.filled_qty) ≤ 0
        · rw [if_pos haq] at h; simp at h
        rw [if_neg haq] at h
        by_cases hbuy : (o.order_type == "buy") = true
        · rw [if_pos hbuy] at h; simp at h
        rw [if_neg (by simpa using hbuy)] at h
        unfold applyFillSell at h
        cases hh : findHolding db u.id o.stock_symbol with
        | none => simp [hh] at h
        | some hold =>
          simp only [hh] at h
          by_cases hlt : hold.quantity < imin q (o.quantity - o.filled_qty)
          · rw [if_pos hlt] at h; simp at h
          · rw [if_neg hlt] at h; simp at h
  · decide

/-- Claim C10, witness. -/
theorem C10_witness :
    apply_fill c10DB 1 2 10 none ≠ .error .fillAlreadyApplied :=
  C10_no_dedup_without_broker_id.1 c10DB 1 2 10

/-! ## Claim C1 — fills on terminal orders -/

/-- A CANCELLED buy order that still has its full quantity unfilled. -/
def cancelledOrderDB : DB :=
  ⟨[⟨1, 1, "C", 10, 50, "buy", "CANCELLED", 0, none⟩], [⟨1, some 0, some 500⟩], [], [], [], 0⟩

/-- Claim C1, counterexample:  `apply_fill` on a CANCELLED order with
remaining quantity does not raise any `FillOnTerminal` error: it applies
the fill, mutates holdings and cash, and moves the order to
PARTIALLY_FILLED. -/
theorem C1_counterexample :
    exceptIsOk (apply_fill cancelledOrderDB 1 5 50 (some "F1")) = true ∧
    (applyFillDB cancelledOrderDB 1 5 50 (some "F1")).holdings ≠ cancelledOrderDB.holdings ∧
    (findOrder (applyFillDB cancelledOrderDB 1 5 50 (some "F1")) 1).map Order.status =
      some "PARTIALLY_FILLED" ∧
    (applyFillDB cancelledOrderDB 1 5 50 (some "F1")).users = [⟨1, some 0, some 250⟩] := by decide

/-- Claim C1, amended:  `apply_fill` performs no terminal-status check (no
`FillOnTerminal` exists).  For orders with `filled_qty ≥ quantity` — in
particular FILLED orders satisfying their invariant — the clipped
quantity is ≤ 0 and the call returns without mutating any state; but a
CANCELLED (or REJECTED) order with remaining quantity is filled as if it
were open, mutating order, holdings and cash. -/
theorem C1_terminal_fill_amended :
    (∀ db oid q (p : Rat) b o, findOrder db oid = some o → o.quantity ≤ o.filled_qty →
      applyFillDB db oid q p b = db) ∧
    ((findOrder (applyFillDB cancelledOrderDB 1 5 50 (some "F1")) 1).map Order.status =
       some "PARTIALLY_FILLED" ∧
     (applyFillDB cancelledOrderDB 1 5 50 (some "F1")).holdings = [⟨1, "C", 5, 0, 50⟩]) := by
  constructor
  · intro db oid q p b o hfind hle
    unfold applyFillDB
    cases hr : apply_fill db oid q p b with
    | error e => rfl
    | ok pr =>
      obtain ⟨d', o'⟩ := pr
      rcases apply_fill_ok_cases hr with ⟨o2, u, hfind2, -, -, -, hc⟩
      rw [hfind] at hfind2
      injection hfind2 with h2
      subst h2
      rcases hc with ⟨haq, rfl, rfl⟩ | ⟨haq, -⟩
      · rfl
      · exfalso
        exact haq (by unfold imin; split <;> omega)
  · decide

/-- Claim C1, witness. -/
theorem C1_witness :
    applyFillDB
      ⟨[⟨1, 1, "F", 10, 50, "buy", "FILLED", 10, some 50⟩], [⟨1, some 0, some 0⟩], [], [], [], 0⟩
      1 3 50 none =
    ⟨[⟨1, 1, "F", 10, 50, "buy", "FILLED", 10, some 50⟩], [⟨1, some 0, some 0⟩], [], [], [], 0⟩ :=
  C1_terminal_fill_amended.1 _ 1 3 50 none ⟨1, 1, "F", 10, 50, "buy", "FILLED", 10, some 50⟩
    (by decide) (by decide)

/-! ## Claim C2 — the holding invariant `0 ≤ reserved_qty ≤ quantity` -/

theorem validate_sell_ok_inv {db : DB} {uid : Int} {sym : String} {qty : Int} {hold : Holding}
    (h : validate_sell db uid sym qty = .ok hold) :
    findHolding db uid sym = some hold ∧ ¬ hold.quantity < qty := by
  unfold validate_sell at h
  cases hh : findHolding db uid sym with
  | none => simp [hh] at h
  | some h0 =>
    simp only [hh] at h
    by_cases hlt : h0.quantity < qty
    · rw [if_pos hlt] at h; simp at h
    · rw [if_neg hlt] at h
      simp only [Except.ok.injEq] at h
      subst h
      exact ⟨rfl, hlt⟩

theorem apply_sell_ok_inv {db : DB} {uid : Int} {sym : String} {qty : Int} {db' : DB}
    {res : Option Holding} (h : apply_sell db uid sym qty = .ok (db', res)) :
    ∃ hold, findHolding db uid sym = some hold ∧ ¬ hold.quantity < qty ∧
      ((hold.quantity - qty ≤ 0 ∧ res = none ∧
        db'.holdings = db.holdings.filter (fun x => !(x.user_id == uid && x.symbol == sym))) ∨
       (¬ hold.quantity - qty ≤ 0 ∧ res = some { hold with quantity := hold.quantity - qty } ∧
        db'.holdings = replaceBy (fun x => x.user_id == uid && x.symbol == sym)
          { hold with quantity := hold.quantity - qty } db.holdings)) := by
  unfold apply_sell at h
  cases hv : validate_sell db uid sym qty with
  | error e => simp [hv] at h
  | ok hold =>
    simp only [hv] at h
    rcases validate_sell_ok_inv hv with ⟨hh, hlt⟩
    by_cases hz : hold.quantity - qty ≤ 0
    · rw [if_pos hz] at h
      simp only [Except.ok.injEq, Prod.mk.injEq] at h
      exact ⟨hold, hh, hlt, .inl ⟨hz, h.2.symm, by rw [← h.1]⟩⟩
    · rw [if_neg hz] at h
      simp only [Except.ok.injEq, Prod.mk.injEq] at h
      exact ⟨hold, hh, hlt, .inr ⟨hz, h.2.symm, by rw [← h.1]⟩⟩

/-- A holding with `reserved_qty > quantity − qty`, so that selling `qty`
through `holdings.apply_sell` breaks the invariant. -/
def overReservedDB : DB := ⟨[], [], [⟨1, "A", 10, 8, 100⟩], [], [], 0⟩

/-- Claim C2, counterexample:  `holdings.apply_sell` decrements `quantity`
without touching `reserved_qty`: selling 5 out of a holding with
`quantity = 10, reserved_qty = 8` succeeds and leaves
`reserved_qty = 8 > 5 = quantity`, violating the invariant. -/
theorem C2_counterexample :
    apply_sell overReservedDB 1 "A" 5 =
      .ok ({ overReservedDB with holdings := [⟨1, "A", 5, 8, 100⟩] }, some ⟨1, "A", 5, 8, 100⟩) ∧
    ¬ ((8 : Int) ≤ 5) := by decide

/-- Claim C2, amended:  `0 ≤ reserved_qty ≤ quantity` is preserved by
`apply_fill`, by `apply_cancel`, and by the sell-side reservation of
order placement (for positive quantities).  `holdings.apply_sell` leaves
`reserved_qty` untouched, so it preserves the invariant when it deletes
the row or when `reserved_qty ≤ quantity − qty`, but not in general. -/
theorem C2_holdings_invariant_amended :
    (∀ db oid q (p : Rat) b db' o', holdingsInvariant db.holdings →
      apply_fill db oid q p b = .ok (db', o') → holdingsInvariant db'.holdings) ∧
    (∀ db oid st db' o', holdingsInvariant db.holdings →
      apply_cancel db oid st = .ok (db', o') → holdingsInvariant db'.holdings) ∧
    (∀ db tid cid sym qty db', holdingsInvariant db.holdings → 0 < qty →
      reserve_sell_holdings db tid cid sym qty = .ok db' → holdingsInvariant db'.holdings) ∧
    (∀ db uid sym qty db', holdingsInvariant db.holdings →
      apply_sell db uid sym qty = .ok (db', none) → holdingsInvariant db'.holdings) ∧
    (∀ db uid sym qty db' h', holdingsInvariant db.holdings →
      apply_sell db uid sym qty = .ok (db', some h') →
      ((findHolding db uid sym).map Holding.reserved_qty = some h'.reserved_qty ∧
       (h'.reserved_qty ≤ h'.quantity → holdingsInvariant db'.holdings))) := by
  refine ⟨?_, ?_, ?_, ?_, ?_⟩
  · intro db oid q p b db' o' hinv h
    rcases apply_fill_ok_cases h with ⟨o, u, hfind, huser, hq, hdup, hc⟩
    rcases hc with ⟨haq, rfl, rfl⟩ | ⟨haq, ⟨hbuy, heq⟩ | ⟨hbuy, hsell⟩⟩
    · exact hinv
    · have hdb : db' = (applyFillBuy db o u (imin q (o.quantity - o.filled_qty)) p b).1 :=
        congrArg Prod.fst heq
      rw [hdb]
      show holdingsInvariant (buyHoldingsUpdate db u.id o.stock_symbol
        (imin q (o.quantity - o.filled_qty)) (rmul p ((imin q (o.quantity - o.filled_qty) : Int) : Rat)))
      exact holdingsInvariant_buyHoldingsUpdate hinv (by omega)
    · rcases applyFillSell_ok_inv hsell with ⟨hold, hh, hlt, -, -, -, hholds, -⟩
      rw [hholds]
      exact holdingsInvariant_sellFill hinv hh (by omega)
  · intro db oid st db' o' hinv h
    rcases apply_cancel_ok_inv h with ⟨hst, o, hfind, hc⟩
    rcases hc with ⟨-, rfl, rfl⟩ | ⟨-, u, huser, -, -, -, hholds, -⟩
    · exact hinv
    · rw [hholds]
      exact holdingsInvariant_cancelHoldingsUpdate hinv
  · intro db tid cid sym qty db' hinv hq h
    unfold reserve_sell_holdings at h
    cases hh : findHolding db cid sym with
    | none => simp [hh] at h
    | some h0 =>
      simp only [hh] at h
      by_cases hfree : h0.quantity - h0.reserved_qty < qty
      · rw [if_pos hfree] at h; simp at h
      · rw [if_neg hfree] at h
        simp only [Except.ok.injEq] at h
        subst h
        intro x hx
        rcases mem_replaceBy hx with rfl | hx
        · have hm := hinv h0 (find?_eq_some_mem hh).1
          constructor <;> simp <;> omega
        · exact hinv x hx
  · intro db uid sym qty db' hinv h
    rcases apply_sell_ok_inv h with ⟨hold, hh, hlt, hc⟩
    rcases hc with ⟨-, -, hholds⟩ | ⟨-, hres, -⟩
    · rw [hholds]
      intro x hx
      exact hinv x (List.mem_of_mem_filter hx)
    · simp at hres
  · intro db uid sym qty db' h' hinv h
    rcases apply_sell_ok_inv h with ⟨hold, hh, hlt, hc⟩
    rcases hc with ⟨-, hres, -⟩ | ⟨-, hres, hholds⟩
    · simp at hres
    · simp only [Option.some.injEq] at hres
      subst hres
      constructor
      · rw [hh]; rfl
      · intro hle
        rw [hholds]
        intro x hx
        rcases mem_replaceBy hx with rfl | hx
        · have hm := hinv hold (find?_eq_some_mem hh).1
          refine ⟨by simpa using hm.1, by simpa using hle⟩
        · exact hinv x hx

/-- Claim C2, witness. -/
theorem C2_witness :
    holdingsInvariant (applyFillDB sellFixtureDB 1 20 90 (some "W1")).holdings := by
  have h : apply_fill sellFixtureDB 1 20 90 (some "W1") =
      .ok (applyFillDB sellFixtureDB 1 20 90 (some "W1"),
        ⟨1, 1, "S", 20, 90, "sell", "FILLED", 20, some 90⟩) := by decide
  have hinv : holdingsInvariant sellFixtureDB.holdings := by
    intro x hx
    have hx1 : x = ⟨1, "S", 50, 0, 80⟩ := by simpa [sellFixtureDB] using hx
    subst hx1
    exact ⟨by decide, by decide⟩
  exact C2_holdings_invariant_amended.1 sellFixtureDB 1 20 90 (some "W1") _ _ hinv h

/-! ## Claim C9 — `apply_cancel` on a buy order releases the user's
entire blocked balance -/

/-- Claim C9:  When `apply_cancel` cancels a non-terminal buy order with
remaining quantity, it credits the user's entire current `cash_blocked`
(whatever orders it was reserved for) to `cash_available` and zeroes
`cash_blocked`; holdings and fills are untouched, and only the status of
the order changes. -/
theorem C9_cancel_releases_all_blocked :
    ∀ db oid st db' o' o u,
      apply_cancel db oid st = .ok (db', o') →
      findOrder db oid = some o →
      (o.status == "CANCELLED" || o.status == "REJECTED" || o.status == "FILLED") = false →
      findUser db o.user_id = some u →
      o.order_type = "buy" → 0 < o.quantity - o.filled_qty →
      db'.users = replaceBy (fun x => x.id == u.id)
        { u with cash_available := some (radd (orZero u.cash_available) (orZero u.cash_blocked)),
                 cash_blocked := some 0 } db.users ∧
      db'.holdings = db.holdings ∧
      db'.fills = db.fills ∧
      o' = { o with status := st } := by
  intro db oid st db' o' o u h hfind hterm huser hbuy hrem
  rcases apply_cancel_ok_inv h with ⟨hst, o2, hfind2, hc⟩
  rw [hfind] at hfind2
  injection hfind2 with h2
  subst h2
  rcases hc with ⟨hterm2, -, -⟩ | ⟨-, u2, huser2, ho', hords, husers, hholds, hfills⟩
  · simp [hterm] at hterm2
  · rw [huser] at huser2
    injection huser2 with h3
    subst h3
    refine ⟨?_, ?_, hfills, ho'⟩
    · rw [husers]
      unfold cancelUsersUpdate
      rw [if_pos (by simp [hbuy]), if_pos hrem]
    · rw [hholds]
      unfold cancelHoldingsUpdate
      rw [if_pos (by simp [hbuy])]

def c9Result : DB × Order :=
  match apply_cancel cancelFixtureDB 1 "CANCELLED" with
  | .ok pr => pr
  | .error _ => (cancelFixtureDB, ⟨0, 0, "", 0, 0, "", "", 0, none⟩)

/-- Claim C9, witness. -/
theorem C9_witness :
    c9Result.1.holdings = cancelFixtureDB.holdings ∧
    c9Result.1.users = replaceBy (fun x => x.id == ((⟨1, some 9000, some 1000⟩ : User)).id)
      { (⟨1, some 9000, some 1000⟩ : User) with
        cash_available := some (radd (orZero (some 9000)) (orZero (some 1000))),
        cash_blocked := some 0 } cancelFixtureDB.users ∧
    c9Result.2 = { (⟨1, 1, "CAN", 20, 50, "buy", "ACCEPTED", 0, none⟩ : Order) with
      status := "CANCELLED" } := by
  have hall := C9_cancel_releases_all_blocked cancelFixtureDB 1 "CANCELLED" c9Result.1 c9Result.2
    ⟨1, 1, "CAN", 20, 50, "buy", "ACCEPTED", 0, none⟩ ⟨1, some 9000, some 1000⟩
    (by decide) (by decide) (by decide) (by decide) rfl (by decide)
  exact ⟨hall.2.1, hall.1, hall.2.2.2⟩

/-! ## Claim C3 — idempotence on (order_id, broker_fill_id) -/

theorem applyFillBuy_components (db : DB) (o : Order) (u : User) (aq : Int) (p : Rat)
    (b : Option String) :
    (applyFillBuy db o u aq p b).1.orders =
      replaceBy (fun x => x.id == o.id) (orderAfterFill o aq p) db.orders ∧
    (applyFillBuy db o u aq p b).1.fills = db.fills ++ [⟨o.id, b, aq, p⟩] ∧
    (applyFillBuy db o u aq p b).2 = orderAfterFill o aq p ∧
    ∃ u', (applyFillBuy db o u aq p b).1.users =
        replaceBy (fun x => x.id == u.id) u' db.users ∧ u'.id = u.id :=
  ⟨rfl, rfl, rfl, ⟨_, rfl, rfl⟩⟩

/-- After a fill with a truthy `broker_fill_id` has been persisted, the
identical call finds the `(order_id, broker_fill_id)` row and raises
`FillAlreadyApplied`. -/
theorem second_fill_duplicate {db db₁ : DB} {o : Order} {u u' : User} {oid aq q : Int}
    {p p₁ : Rat} {b : String}
    (hb : b.isEmpty = false)
    (hfind : findOrder db oid = some o)
    (huser : findUser db o.user_id = some u)
    (hq : ¬ q ≤ 0)
    (horders : db₁.orders = replaceBy (fun x => x.id == o.id) (orderAfterFill o aq p₁) db.orders)
    (husers : db₁.users = replaceBy (fun x => x.id == u.id) u' db.users)
    (huid : u'.id = u.id)
    (hfills : db₁.fills = db.fills ++ [⟨o.id, some b, aq, p₁⟩]) :
    apply_fill db₁ oid q p (some b) = .error .fillAlreadyApplied := by
  have hoid : o.id = oid := by
    have := (find?_eq_some_mem hfind).2
    simpa using this
  subst hoid
  have hfind1 : findOrder db₁ o.id = some (orderAfterFill o aq p₁) := by
    unfold findOrder
    rw [horders]
    exact find?_replaceBy _ _ _ _ hfind (by simp [orderAfterFill])
  have huid2 : u.id = o.user_id := by
    have := (find?_eq_some_mem huser).2
    simpa using this
  have huser1 : findUser db₁ (orderAfterFill o aq p₁).user_id = some u' := by
    unfold findUser
    have hsame : (orderAfterFill o aq p₁).user_id = o.user_id := rfl
    rw [hsame, husers, ← huid2]
    exact find?_replaceBy _ _ _ _ (by rw [huid2]; exact huser) (by simp [huid])
  have hcond : (truthyStr (some b) &&
      db₁.fills.any (fun f => f.order_id == o.id && f.broker_fill_id == some b)) = true := by
    rw [hfills]
    simp [truthyStr, hb]
  unfold apply_fill
  rw [if_neg hq]
  simp only [hfind1, huser1, hcond, if_pos]

/-- Claim C3:  `apply_fill` is idempotent on the state for a present
(truthy) `broker_fill_id`: the second identical call either no-ops or
raises `FillAlreadyApplied`, leaving the state of the first call; and
the fill webhook handler answers `FillAlreadyApplied` with HTTP 200 and
`{status: IGNORED, reason: duplicate}` without touching the state. -/
theorem C3_fill_idempotent :
    (∀ db oid q (p : Rat) (b : String), b.isEmpty = false →
      applyFillDB (applyFillDB db oid q p (some b)) oid q p (some b) =
        applyFillDB db oid q p (some b)) ∧
    (∀ db oid q (p : Rat) bfid, apply_fill db oid q p bfid = .error .fillAlreadyApplied →
      broker_fill db oid q p bfid = (.ignoredDuplicate, db)) ∧
    fillResponseStatus .ignoredDuplicate = 200 := by
  refine ⟨?_, ?_, rfl⟩
  · intro db oid q p b hb
    cases hr : apply_fill db oid q p (some b) with
    | error e =>
      have h1 : applyFillDB db oid q p (some b) = db := by unfold applyFillDB; rw [hr]
      rw [h1, h1]
    | ok pr =>
      obtain ⟨d₁, o₁⟩ := pr
      have h1 : applyFillDB db oid q p (some b) = d₁ := by unfold applyFillDB; rw [hr]
      rw [h1]
      rcases apply_fill_ok_cases hr with ⟨o, u, hfind, huser, hq, hdup, hc⟩
      rcases hc with ⟨haq, rfl, rfl⟩ | ⟨haq, hbr⟩
      · unfold applyFillDB
        rw [hr]
      · rcases hbr with ⟨hbuy, heq⟩ | ⟨hbuy, hsell⟩
        · obtain ⟨hords, hfills, ho2, u', husers, huid⟩ :=
            applyFillBuy_components db o u (imin q (o.quantity - o.filled_qty)) p (some b)
          have hd : d₁ = (applyFillBuy db o u (imin q (o.quantity - o.filled_qty)) p (some b)).1 :=
            congrArg Prod.fst heq
          subst hd
          unfold applyFillDB
          rw [second_fill_duplicate hb hfind huser hq hords husers huid hfills]
        · rcases applyFillSell_ok_inv hsell with ⟨hold, hh, hlt, ho1, hords, husers, hholds, hfills⟩
          unfold applyFillDB
          rw [second_fill_duplicate hb hfind huser hq hords husers rfl hfills]
  · intro db oid q p bfid h
    unfold broker_fill
    rw [h]

/-- Claim C3, witness. -/
theorem C3_witness :
    applyFillDB (applyFillDB buyFixtureDB 1 40 99 (some "W2")) 1 40 99 (some "W2") =
      applyFillDB buyFixtureDB 1 40 99 (some "W2") ∧
    broker_fill (applyFillDB buyFixtureDB 1 40 99 (some "F1")) 1 40 99 (some "F1") =
      (.ignoredDuplicate, applyFillDB buyFixtureDB 1 40 99 (some "F1")) :=
  ⟨C3_fill_idempotent.1 buyFixtureDB 1 40 99 "W2" (by decide),
   C3_fill_idempotent.2.1 (applyFillDB buyFixtureDB 1 40 99 (some "F1")) 1 40 99 (some "F1")
     (by decide)⟩

/-! ## Claim C4 — residual blocked cash is released when a buy order
completes -/

theorem blockedAfterDebit_nonneg (bl : Option Rat) (c : Rat) :
    0 ≤ blockedAfterDebit bl c := by
  simp only [blockedAfterDebit]
  split
  · exact le_refl 0
  · next h => exact le_of_not_lt h

/-- The §8 scenario after placement: BUY 100 ABC @ 50 with 5000 reserved
out of 10000. -/
def scenarioC4DB : DB :=
  ⟨[⟨1, 1, "ABC", 100, 50, "buy", "ACCEPTED", 0, none⟩], [⟨1, some 5000, some 5000⟩],
   [], [], [], 0⟩

/-- Claim C4:  When a fill completes a buy order, `apply_fill` zeroes
`cash_blocked`, crediting the whole residual (the post-debit blocked
amount, when positive) to `cash_available`; concretely the 40@49 then
60@48 fills of a BUY 100 @ 50 reservation end FILLED at
`avg_fill_price = 48.4`, holding `(100, 48.4)`, `cash_blocked = 0` and
`cash_available = 5160`. -/
theorem C4_full_fill_releases_residual :
    (∀ db oid q (p : Rat) b db' o' o u,
      apply_fill db oid q p b = .ok (db', o') →
      findOrder db oid = some o → findUser db o.user_id = some u →
      o.order_type = "buy" → o.filled_qty < o.quantity →
      o'.filled_qty = o'.quantity →
      db'.users = replaceBy (fun x => x.id == u.id)
        { u with
          cash_available :=
            if 0 < blockedAfterDebit u.cash_blocked
                (rmul p ((imin q (o.quantity - o.filled_qty) : Int) : Rat))
              then some (radd (orZero u.cash_available)
                (blockedAfterDebit u.cash_blocked
                  (rmul p ((imin q (o.quantity - o.filled_qty) : Int) : Rat))))
              else u.cash_available,
          cash_blocked := some 0 } db.users) ∧
    (findOrder (applyFillDB (applyFillDB scenarioC4DB 1 40 49 (some "F1")) 1 60 48 (some "F2")) 1 =
       some ⟨1, 1, "ABC", 100, 50, "buy", "FILLED", 100, some (rdiv 242 5)⟩ ∧
     (applyFillDB (applyFillDB scenarioC4DB 1 40 49 (some "F1")) 1 60 48 (some "F2")).holdings =
       [⟨1, "ABC", 100, 0, rdiv 242 5⟩] ∧
     (applyFillDB (applyFillDB scenarioC4DB 1 40 49 (some "F1")) 1 60 48 (some "F2")).users =
       [⟨1, some 5160, some 0⟩]) := by
  constructor
  · intro db oid q p b db' o' o u hr hfind huser hbuy hrem hcomp
    rcases apply_fill_ok_cases hr with ⟨o2, u2, hfind2, huser2, hq, hdup, hc⟩
    rw [hfind] at hfind2
    injection hfind2 with h2
    subst h2
    rw [huser] at huser2
    injection huser2 with h3
    subst h3
    rcases hc with ⟨haq, rfl, rfl⟩ | ⟨haq, hbr⟩
    · exact absurd hcomp (by omega)
    rcases hbr with ⟨hbuy2, heq⟩ | ⟨hbuy2, hsell⟩
    · have hd : db' = (applyFillBuy db o u (imin q (o.quantity - o.filled_qty)) p b).1 :=
        congrArg Prod.fst heq
      have ho : o' = orderAfterFill o (imin q (o.quantity - o.filled_qty)) p :=
        congrArg Prod.snd heq
      subst hd
      rw [ho] at hcomp
      have hcompB : ((orderAfterFill o (imin q (o.quantity - o.filled_qty)) p).filled_qty ==
          (orderAfterFill o (imin q (o.quantity - o.filled_qty)) p).quantity) = true := by
        simpa using hcomp
      simp only [applyFillBuy, hcompB, Bool.true_and]
      by_cases hpos : 0 < blockedAfterDebit u.cash_blocked
          (rmul p ((imin q (o.quantity - o.filled_qty) : Int) : Rat))
      · simp [hpos]
      · have h0 : blockedAfterDebit u.cash_blocked
            (rmul p ((imin q (o.quantity - o.filled_qty) : Int) : Rat)) = 0 :=
          le_antisymm (not_lt.1 hpos) (blockedAfterDebit_nonneg _ _)
        simp [hpos, h0]
    · simp [hbuy] at hbuy2
  · refine ⟨by decide, by decide, by decide⟩

def c4wDB : DB :=
  ⟨[⟨1, 1, "W", 1, 50, "buy", "ACCEPTED", 0, none⟩], [⟨1, some 100, some 50⟩], [], [], [], 0⟩

def c4wResult : DB × Order :=
  match apply_fill c4wDB 1 1 30 (some "WF") with
  | .ok pr => pr
  | .error _ => (c4wDB, ⟨0, 0, "", 0, 0, "", "", 0, none⟩)

/-- Claim C4, witness. -/
theorem C4_witness :
    c4wResult.1.users = replaceBy (fun x => x.id == ((⟨1, some 100, some 50⟩ : User)).id)
      { (⟨1, some 100, some 50⟩ : User) with
        cash_available :=
          if 0 < blockedAfterDebit (some 50)
              (rmul 30 ((imin 1 (((1 : Int)) - 0) : Int) : Rat))
            then some (radd (orZero (some 100))
              (blockedAfterDebit (some 50)
                (rmul 30 ((imin 1 (((1 : Int)) - 0) : Int) : Rat))))
            else some 100,
        cash_blocked := some 0 } c4wDB.users :=
  C4_full_fill_releases_residual.1 c4wDB 1 1 30 (some "WF") c4wResult.1 c4wResult.2
    ⟨1, 1, "W", 1, 50, "buy", "ACCEPTED", 0, none⟩ ⟨1, some 100, some 50⟩
    (by decide) (by decide) (by decide) rfl (by decide) (by decide)

/-! ## Claim C6 — webhook signature verification -/

def c6Settings : Settings := ⟨some "S1", some "S2"⟩

def c6Body : List Nat := strBytes "payload-1"

def c6SigS2 : String := compute_signature c6Settings c6Body (some "S2")

def c6BadAlgoHeaders : String → Option String := fun n =>
  if n == SIGNATURE_HEADER then some c6SigS2
  else if n == ALGO_HEADER then some "HMAC-SHA1" else none

def c6GoodHeaders : String → Option String := fun n =>
  if n == SIGNATURE_HEADER then some c6SigS2 else none

/-- Claim C6, counterexample:  A request whose signature matches a
configured (rotated) secret is still rejected — with 400, not 401 — when
the optional `X-Broker-Signature-Alg` header carries a different value,
so acceptance is not equivalent to signature match, and rejection is not
always 401. -/
theorem C6_counterexample :
    verify_signature c6Settings c6Body c6BadAlgoHeaders =
      .error (.badRequest "Unsupported signature algorithm") ∧
    (∃ c ∈ _candidate_secrets c6Settings,
      compute_signature c6Settings c6Body (some c) =
        (c6BadAlgoHeaders SIGNATURE_HEADER).getD "") ∧
    httpErrorStatus (.badRequest "Unsupported signature algorithm") ≠ 401 := by decide

/-- Claim C6, amended:  When the algorithm header is absent (or empty) or
equals `HMAC-SHA256`, verification accepts exactly the requests whose
(non-empty) `X-Broker-Signature` equals the HMAC-SHA256 hex of the raw
body under at least one configured secret, and every rejection in that
regime is 401; a present, different algorithm header short-circuits to a
400 rejection even when a secret matches. -/
theorem C6_verify_signature_amended :
    (∀ settings body (headers : String → Option String),
      truthyStr (headers ALGO_HEADER) = false ∨ headers ALGO_HEADER = some EXPECTED_ALGO →
      ((verify_signature settings body headers = .ok ()) ↔
        (truthyStr (headers SIGNATURE_HEADER) = true ∧
         ∃ c ∈ _candidate_secrets settings,
           compute_signature settings body (some c) = (headers SIGNATURE_HEADER).getD ""))) ∧
    (∀ settings body (headers : String → Option String) e,
      truthyStr (headers ALGO_HEADER) = false ∨ headers ALGO_HEADER = some EXPECTED_ALGO →
      verify_signature settings body headers = .error e → httpErrorStatus e = 401) ∧
    (∀ settings body (headers : String → Option String),
      truthyStr (headers SIGNATURE_HEADER) = true →
      truthyStr (headers ALGO_HEADER) = true →
      (headers ALGO_HEADER).getD "" ≠ EXPECTED_ALGO →
      verify_signature settings body headers =
        .error (.badRequest "Unsupported signature algorithm")) := by
  refine ⟨?_, ?_, ?_⟩
  · intro settings body headers hgood
    unfold verify_signature
    by_cases hsig : truthyStr (headers SIGNATURE_HEADER) = true
    · rw [if_neg (by simp [hsig])]
      have halgo : (truthyStr (headers ALGO_HEADER) &&
          ((headers ALGO_HEADER).getD "" != EXPECTED_ALGO)) = false := by
        rcases hgood with h | h
        · simp [h]
        · simp [h, truthyStr, EXPECTED_ALGO]
      rw [if_neg (by simp [halgo])]
      by_cases hany : ((_candidate_secrets settings).any
          (fun c => compute_signature settings body (some c) ==
            (headers SIGNATURE_HEADER).getD "")) = true
      · rw [if_pos hany]
        simp only [List.any_eq_true, beq_iff_eq] at hany
        exact ⟨fun _ => ⟨hsig, hany⟩, fun _ => rfl⟩
      · rw [if_neg hany]
        constructor
        · intro hcontra
          simp at hcontra
        · rintro ⟨-, c, hc, hceq⟩
          exact absurd (List.any_eq_true.2 ⟨c, hc, by simp [hceq]⟩) hany
    · rw [if_pos (by simpa using hsig)]
      constructor
      · intro hcontra
        simp at hcontra
      · rintro ⟨h, -⟩
        exact absurd h hsig
  · intro settings body headers e hgood h
    unfold verify_signature at h
    by_cases hsig : truthyStr (headers SIGNATURE_HEADER) = true
    · rw [if_neg (by simp [hsig])] at h
      have halgo : (truthyStr (headers ALGO_HEADER) &&
          ((headers ALGO_HEADER).getD "" != EXPECTED_ALGO)) = false := by
        rcases hgood with hg | hg
        · simp [hg]
        · simp [hg, truthyStr, EXPECTED_ALGO]
      rw [if_neg (by simp [halgo])] at h
      by_cases hany : ((_candidate_secrets settings).any
          (fun c => compute_signature settings body (some c) ==
            (headers SIGNATURE_HEADER).getD "")) = true
      · rw [if_pos hany] at h
        simp at h
      · rw [if_neg hany] at h
        simp only [Except.error.injEq] at h
        subst h
        rfl
    · rw [if_pos (by simpa using hsig)] at h
      simp only [Except.error.injEq] at h
      subst h
      rfl
  · intro settings body headers hsig halgo hne
    unfold verify_signature
    rw [if_neg (by simp [hsig])]
    rw [if_pos (by simp [halgo, bne_iff_ne, hne])]

/-- Claim C6, witness.  A payload signed with the rotated secret `S2` and
no algorithm header is accepted. -/
theorem C6_witness : verify_signature c6Settings c6Body c6GoodHeaders = .ok () :=
  (C6_verify_signature_amended.1 c6Settings c6Body c6GoodHeaders (Or.inl (by decide))).mpr
    ⟨by decide, "S2", by decide, by decide⟩

/-! ## Claim C7 — the audit hash chain -/

def payloadOfRow (r : AuditRow) : AuditPayload :=
  ⟨r.actor_user_id, r.target_user_id, r.action, r.description, r.details, r.prev_hash, r.ts⟩

/-- The chain property, checked from an expected predecessor hash: each
row's `prev_hash` is the running predecessor hash (`none` at the very
start) and its `hash` is the SHA-256 of its own canonical payload. -/
def auditChainOk : Option String → List AuditRow → Bool
  | _, [] => true
  | prev, r :: rest =>
    (r.prev_hash == prev && r.hash == some (auditHash (payloadOfRow r))) &&
      auditChainOk r.hash rest

/-- The hash the next append must link to. -/
def lastHashCarry : Option String → List AuditRow → Option String
  | prev, [] => prev
  | _, r :: rest => lastHashCarry r.hash rest

theorem auditChainOk_append {prev : Option String} {l : List AuditRow} (r : AuditRow)
    (hl : auditChainOk prev l = true)
    (hprev : r.prev_hash = lastHashCarry prev l)
    (hhash : r.hash = some (auditHash (payloadOfRow r))) :
    auditChainOk prev (l ++ [r]) = true := by
  induction l generalizing prev with
  | nil =>
    simp only [lastHashCarry] at hprev
    simp [auditChainOk, hprev, hhash]
  | cons x xs ih =>
    simp only [auditChainOk, Bool.and_eq_true] at hl
    obtain ⟨⟨h1, h2⟩, h3⟩ := hl
    simp only [lastHashCarry] at hprev
    simp only [List.cons_append, auditChainOk, Bool.and_eq_true]
    exact ⟨⟨h1, h2⟩, ih h3 hprev⟩

theorem prevHashOf_carry_aux : ∀ (x : AuditRow) (xs : List AuditRow) (prev : Option String),
    auditChainOk prev (x :: xs) = true → prevHashOf (x :: xs) = lastHashCarry prev (x :: xs) := by
  intro x xs
  induction xs generalizing x with
  | nil =>
    intro prev h
    simp only [auditChainOk, Bool.and_eq_true] at h
    obtain ⟨⟨-, h2⟩, -⟩ := h
    simp only [beq_iff_eq] at h2
    show (match x.hash with
      | none => none
      | some h => if h.isEmpty then none else some h) = x.hash
    rw [h2]
    simp [auditHash, bytesToHex_sha256_not_empty]
  | cons y ys ih =>
    intro prev h
    simp only [auditChainOk, Bool.and_eq_true] at h
    obtain ⟨-, h3⟩ := h
    exact ih y x.hash (by simp only [auditChainOk, Bool.and_eq_true]; exact h3)

theorem prevHashOf_eq_carry {l : List AuditRow} (hl : auditChainOk none l = true) :
    prevHashOf l = lastHashCarry none l := by
  cases l with
  | nil => rfl
  | cons x xs => exact prevHashOf_carry_aux x xs none hl

theorem auditChainOk_log {l : List AuditRow} {clock : Nat} {a t : Option Int}
    {act desc det : String} (hl : auditChainOk none l = true) :
    auditChainOk none (_log l clock a t act desc det).1 = true := by
  unfold _log
  apply auditChainOk_append _ hl
  · exact prevHashOf_eq_carry hl
  · rfl

theorem auditChainOk_applyFillBuy {db : DB} {o : Order} {u : User} {aq : Int} {p : Rat}
    {b : Option String} (hl : auditChainOk none db.audit = true) :
    auditChainOk none (applyFillBuy db o u aq p b).1.audit = true := by
  simp only [applyFillBuy]
  by_cases hdo : (((orderAfterFill o aq p).filled_qty == (orderAfterFill o aq p).quantity) &&
      decide (0 < blockedAfterDebit u.cash_blocked (rmul p ((aq : Int) : Rat)))) = true
  · simp only [hdo, if_true]
    exact auditChainOk_log (auditChainOk_log (auditChainOk_log hl))
  · simp only [hdo, if_false]
    exact auditChainOk_log (auditChainOk_log hl)

theorem auditChainOk_applyFillSell {db : DB} {o : Order} {u : User} {aq : Int} {p : Rat}
    {b : Option String} {db' : DB} {o' : Order}
    (hl : auditChainOk none db.audit = true)
    (h : applyFillSell db o u aq p b = .ok (db', o')) :
    auditChainOk none db'.audit = true := by
  unfold applyFillSell at h
  cases hh : findHolding db u.id o.stock_symbol with
  | none => simp [hh] at h
  | some hold =>
    simp only [hh] at h
    by_cases hlt : hold.quantity < aq
    · rw [if_pos hlt] at h
      simp at h
    · rw [if_neg hlt] at h
      cases h
      exact auditChainOk_log (auditChainOk_log hl)

/-- Claim C7:  Every audit append maintains the hash chain: `_log` and
`log_trader_action` link the new row to the highest-id row's hash
(`none` on an empty log) and hash the canonical sorted-key payload, and
the fill-service mutations preserve the chain property of the whole
audit list. -/
theorem C7_audit_chain :
    (∀ (l : List AuditRow) (clock : Nat) (a t : Option Int) (act desc det : String),
      auditChainOk none l = true →
      auditChainOk none (_log l clock a t act desc det).1 = true) ∧
    (∀ (l : List AuditRow) (clock : Nat) (aid tid : Int) (act desc : String)
      (det : Option String),
      auditChainOk none l = true →
      auditChainOk none (log_trader_action l clock aid tid act desc det).1 = true) ∧
    (∀ db oid q (p : Rat) b db' o', auditChainOk none db.audit = true →
      apply_fill db oid q p b = .ok (db', o') → auditChainOk none db'.audit = true) ∧
    (∀ db oid st db' o', auditChainOk none db.audit = true →
      apply_cancel db oid st = .ok (db', o') → auditChainOk none db'.audit = true) := by
  refine ⟨?_, ?_, ?_, ?_⟩
  · intro l clock a t act desc det hl
    exact auditChainOk_log hl
  · intro l clock aid tid act desc det hl
    unfold log_trader_action
    exact auditChainOk_log hl
  · intro db oid q p b db' o' hl h
    rcases apply_fill_ok_cases h with ⟨o, u, -, -, -, -, hc⟩
    rcases hc with ⟨-, rfl, rfl⟩ | ⟨-, ⟨-, heq⟩ | ⟨-, hsell⟩⟩
    · exact hl
    · have hd : db' = (applyFillBuy db o u (imin q (o.quantity - o.filled_qty)) p b).1 :=
        congrArg Prod.fst heq
      rw [hd]
      exact auditChainOk_applyFillBuy hl
    · exact auditChainOk_applyFillSell hl hsell
  · intro db oid st db' o' hl h
    unfold apply_cancel at h
    by_cases hst : (!(st == "CANCELLED" || st == "REJECTED")) = true
    · rw [if_pos hst] at h
      simp at h
    rw [if_neg hst] at h
    cases hfind : findOrder db oid with
    | none => simp [hfind] at h
    | some o =>
      simp only [hfind] at h
      by_cases hterm : (o.status == "CANCELLED" || o.status == "REJECTED" ||
          o.status == "FILLED") = true
      · rw [if_pos hterm] at h
        simp only [Except.ok.injEq, Prod.mk.injEq] at h
        rw [← h.1]
        exact hl
      · rw [if_neg hterm] at h
        cases huser : findUser db o.user_id with
        | none => simp [huser] at h
        | some u =>
          simp only [huser] at h
          cases h
          exact auditChainOk_log hl

/-- Claim C7, witness. -/
theorem C7_witness :
    auditChainOk none (_log [] 0 none (some 1) "FUNDS_DEBIT" "d" "x").1 = true :=
  C7_audit_chain.1 [] 0 none (some 1) "FUNDS_DEBIT" "d" "x" rfl
